import Mathlib

/-!
Verification of the Risk and Order-Execution engine of the trading-platform
repository.  The definitions below are a shallow embedding of
src/src/risk/RiskManager.py and src/src/execution/OrderExecutor.py.
Python Decimal and float quantities are embedded as rationals; where a
claim rests on arithmetic exactness, Decimal arithmetic is additionally
modelled with every operation correctly rounded to the default context's
28 significant digits (decRound28 below), since Decimal division rounds;
Python dicts keyed by strings are embedded as insertion-ordered
association lists; a Python method that can raise is embedded as a
function into Option or Except, with none / error marking the raise.
-/

namespace Trading

/-! ## Risk levels and limits (RiskManager.py, RiskLevel and risk_limits) -/

inductive RiskLevel
| conservative
| moderate
| aggressive
deriving DecidableEq, Repr

structure RiskLimitProfile where
  max_position_size : ℚ
  max_correlation : ℚ
  min_risk_reward : ℚ
  stop_loss_pct : ℚ
  max_concurrent_trades : ℕ
deriving DecidableEq, Repr

def riskLimits : RiskLevel → RiskLimitProfile
| .conservative => { max_position_size := 5/100, max_correlation := 3/10,
                     min_risk_reward := 2, stop_loss_pct := 2/100, max_concurrent_trades := 3 }
| .moderate => { max_position_size := 10/100, max_correlation := 5/10,
                 min_risk_reward := 3/2, stop_loss_pct := 5/100, max_concurrent_trades := 5 }
| .aggressive => { max_position_size := 20/100, max_correlation := 7/10,
                   min_risk_reward := 1, stop_loss_pct := 10/100, max_concurrent_trades := 10 }

/-- Configuration state of a RiskManager instance (the fields of __init__
that calculate_position_size and validate_trade read). -/
structure RiskManagerCfg where
  current_capital : ℚ
  risk_per_trade : ℚ
  risk_level : RiskLevel
deriving DecidableEq, Repr

/-! ## Python round: round-half-to-even at a decimal precision -/

/-- Round-half-to-even of a rational to an integer, as Python round does. -/
def roundHalfEven (x : ℚ) : ℤ :=
  if x - ⌊x⌋ < 1/2 then ⌊x⌋
  else if 1/2 < x - ⌊x⌋ then ⌊x⌋ + 1
  else if ⌊x⌋ % 2 = 0 then ⌊x⌋ else ⌊x⌋ + 1

/-- Python round(x, n): round-half-to-even at n decimal places. -/
def pyRound (x : ℚ) (n : ℕ) : ℚ := (roundHalfEven (x * 10 ^ n) : ℚ) / 10 ^ n

/-- Decimal precision tier used by calculate_position_size: 3 decimals above
price 1000, 2 decimals above 100, otherwise 1 decimal. -/
def roundPrecision (entry_price : ℚ) : ℕ :=
  if 1000 < entry_price then 3 else if 100 < entry_price then 2 else 1

/-! ## RiskManager.calculate_position_size -/

/-- The risk_metrics dict returned by calculate_position_size. -/
structure PositionSizeMetrics where
  basic_position_size : ℚ
  kelly_position_size : ℚ
  max_allowed_position : ℚ
  risk_per_trade : ℚ
  risk_per_unit : ℚ
  position_size : ℚ
  position_value : ℚ
  position_percentage : ℚ
deriving DecidableEq, Repr

namespace RiskManager

/-- Embedding of RiskManager.calculate_position_size.  A none risk amount
defaults to current_capital * risk_per_trade; equal entry and stop prices
yield size 0 with an empty metrics payload (none). -/
def calculate_position_size (cfg : RiskManagerCfg) (entry_price stop_loss_price : ℚ)
    (riskAmountArg : Option ℚ) : ℚ × Option PositionSizeMetrics :=
  let risk_amount := riskAmountArg.getD (cfg.current_capital * cfg.risk_per_trade)
  let risk_per_unit := |entry_price - stop_loss_price|
  if risk_per_unit = 0 then (0, none)
  else
    let basic_position_size := risk_amount / risk_per_unit
    let win_rate : ℚ := 55/100
    let avg_win : ℚ := 2
    let kelly_fraction := win_rate - (1 - win_rate) / avg_win
    let kelly_position_size := cfg.current_capital * kelly_fraction / risk_per_unit
    let max_position_by_capital :=
      cfg.current_capital * (riskLimits cfg.risk_level).max_position_size
    let max_position_by_price := max_position_by_capital / entry_price
    let raw := min basic_position_size (min kelly_position_size max_position_by_price)
    let position_size := pyRound raw (roundPrecision entry_price)
    (position_size,
      some { basic_position_size := basic_position_size,
             kelly_position_size := kelly_position_size,
             max_allowed_position := max_position_by_price,
             risk_per_trade := risk_amount,
             risk_per_unit := risk_per_unit,
             position_size := position_size,
             position_value := position_size * entry_price,
             position_percentage := position_size * entry_price / cfg.current_capital * 100 })

end RiskManager

/-! ## Bounds for Python rounding -/

theorem roundHalfEven_le (x : ℚ) : (roundHalfEven x : ℚ) ≤ x + 1/2 := by
  have hfl : (⌊x⌋ : ℚ) ≤ x := Int.floor_le x
  unfold roundHalfEven
  split_ifs with h1 h2 h3 <;> push_cast <;> linarith

theorem le_roundHalfEven (x : ℚ) : x - 1/2 ≤ (roundHalfEven x : ℚ) := by
  have hfl : x < (⌊x⌋ : ℚ) + 1 := Int.lt_floor_add_one x
  unfold roundHalfEven
  split_ifs with h1 h2 h3 <;> push_cast <;> linarith

theorem pyRound_le (x : ℚ) (n : ℕ) : pyRound x n ≤ x + 1 / (2 * 10 ^ n) := by
  have h10 : (0:ℚ) < 10 ^ n := by positivity
  have h := roundHalfEven_le (x * 10 ^ n)
  unfold pyRound
  rw [div_le_iff h10]
  have hexp : (x + 1 / (2 * 10 ^ n)) * 10 ^ n = x * 10 ^ n + 1/2 := by
    field_simp
    ring
  rw [hexp]
  exact h

theorem le_pyRound (x : ℚ) (n : ℕ) : x - 1 / (2 * 10 ^ n) ≤ pyRound x n := by
  have h10 : (0:ℚ) < 10 ^ n := by positivity
  have h := le_roundHalfEven (x * 10 ^ n)
  unfold pyRound
  rw [le_div_iff h10]
  have hexp : (x - 1 / (2 * 10 ^ n)) * 10 ^ n = x * 10 ^ n - 1/2 := by
    field_simp
    ring
  rw [hexp]
  exact h

theorem pyRound_min3_le_left (a k p : ℚ) (n : ℕ) :
    pyRound (min a (min k p)) n ≤ a + 1 / (2 * 10 ^ n) :=
  le_trans (pyRound_le _ _) (by linarith [min_le_left a (min k p)])

theorem pyRound_min3_le_mid (a k p : ℚ) (n : ℕ) :
    pyRound (min a (min k p)) n ≤ k + 1 / (2 * 10 ^ n) :=
  le_trans (pyRound_le _ _)
    (by linarith [le_trans (min_le_right a (min k p)) (min_le_left k p)])

theorem pyRound_min3_le_right (a k p : ℚ) (n : ℕ) :
    pyRound (min a (min k p)) n ≤ p + 1 / (2 * 10 ^ n) :=
  le_trans (pyRound_le _ _)
    (by linarith [le_trans (min_le_right a (min k p)) (min_le_right k p)])

theorem pyRound_min3_mul_le (a k c entry : ℚ) (n : ℕ) (he : 0 < entry) :
    pyRound (min a (min k (c / entry))) n * entry ≤ c + entry * (1 / (2 * 10 ^ n)) := by
  have h3 : min a (min k (c / entry)) ≤ c / entry :=
    le_trans (min_le_right _ _) (min_le_right _ _)
  have h4 : min a (min k (c / entry)) * entry ≤ c := (le_div_iff he).mp h3
  have h5 := pyRound_le (min a (min k (c / entry))) n
  have h6 := mul_le_mul_of_nonneg_right h5 he.le
  have h7 : (min a (min k (c / entry)) + 1 / (2 * 10 ^ n)) * entry =
      min a (min k (c / entry)) * entry + entry * (1 / (2 * 10 ^ n)) := by ring
  linarith

/-- Claim C1 counterexample: with capital 10000, Moderate level, entry 3/2,
stop 1/2 and risk amount 2000, the three candidates are 2000, 3250 and
2000/3; the minimum 2000/3 is rounded at the 1-decimal tier up to 666.7,
which exceeds the capital-cap candidate, and 666.7 times the entry price
exceeds capital times the Moderate max position fraction. -/
theorem C1_counterexample :
    (RiskManager.calculate_position_size ⟨10000, 2/100, .moderate⟩ (3/2) (1/2) (some 2000)).1 =
      6667/10 ∧
    ((RiskManager.calculate_position_size ⟨10000, 2/100, .moderate⟩ (3/2) (1/2)
        (some 2000)).2.map PositionSizeMetrics.max_allowed_position) = some (2000/3) ∧
    ¬ ((6667:ℚ)/10 ≤ 2000/3) ∧
    ¬ ((6667:ℚ)/10 * (3/2) ≤ 10000 * (riskLimits RiskLevel.moderate).max_position_size) := by
  refine ⟨?_, ?_, by norm_num, by norm_num [riskLimits]⟩ <;>
    norm_num [RiskManager.calculate_position_size, pyRound, roundHalfEven, roundPrecision,
      riskLimits, min_def]

/-- Claim C1 amended: the pre-rounding size is the minimum of the three
candidates, so after rounding to the price-tier precision the returned size
stays within half of one rounding unit of each candidate, and size times
entry price stays within entry times half a rounding unit of capital times
the risk-level max position fraction. -/
theorem C1_position_size_bounds (cfg : RiskManagerCfg) (entry stop : ℚ) (ra : Option ℚ)
    (hentry : 0 < entry) (hne : entry ≠ stop) :
    ∃ m, (RiskManager.calculate_position_size cfg entry stop ra).2 = some m ∧
      (RiskManager.calculate_position_size cfg entry stop ra).1 ≤
        m.basic_position_size + 1 / (2 * 10 ^ roundPrecision entry) ∧
      (RiskManager.calculate_position_size cfg entry stop ra).1 ≤
        m.kelly_position_size + 1 / (2 * 10 ^ roundPrecision entry) ∧
      (RiskManager.calculate_position_size cfg entry stop ra).1 ≤
        m.max_allowed_position + 1 / (2 * 10 ^ roundPrecision entry) ∧
      (RiskManager.calculate_position_size cfg entry stop ra).1 * entry ≤
        cfg.current_capital * (riskLimits cfg.risk_level).max_position_size +
          entry * (1 / (2 * 10 ^ roundPrecision entry)) := by
  have hrpu : ¬ (|entry - stop| = 0) := by simpa [sub_eq_zero] using hne
  simp only [RiskManager.calculate_position_size]
  rw [if_neg hrpu]
  refine ⟨_, rfl, ?_, ?_, ?_, ?_⟩
  · exact pyRound_min3_le_left _ _ _ _
  · exact pyRound_min3_le_mid _ _ _ _
  · exact pyRound_min3_le_right _ _ _ _
  · exact pyRound_min3_mul_le _ _ _ _ _ hentry

/-- Witness for C1_position_size_bounds at capital 10000, Moderate level,
entry 100, stop 95, risk amount 200. -/
theorem C1_position_size_bounds_witness :
    (0:ℚ) < 100 ∧ (100:ℚ) ≠ 95 ∧
    (∃ m, (RiskManager.calculate_position_size ⟨10000, 2/100, .moderate⟩ 100 95
        (some 200)).2 = some m ∧
      (RiskManager.calculate_position_size ⟨10000, 2/100, .moderate⟩ 100 95 (some 200)).1 ≤
        m.basic_position_size + 1 / (2 * 10 ^ roundPrecision 100) ∧
      (RiskManager.calculate_position_size ⟨10000, 2/100, .moderate⟩ 100 95 (some 200)).1 ≤
        m.kelly_position_size + 1 / (2 * 10 ^ roundPrecision 100) ∧
      (RiskManager.calculate_position_size ⟨10000, 2/100, .moderate⟩ 100 95 (some 200)).1 ≤
        m.max_allowed_position + 1 / (2 * 10 ^ roundPrecision 100) ∧
      (RiskManager.calculate_position_size ⟨10000, 2/100, .moderate⟩ 100 95 (some 200)).1 * 100 ≤
        (10000:ℚ) * (riskLimits RiskLevel.moderate).max_position_size +
          100 * (1 / (2 * 10 ^ roundPrecision 100))) :=
  ⟨by norm_num, by norm_num,
    C1_position_size_bounds ⟨10000, 2/100, .moderate⟩ 100 95 (some 200)
      (by norm_num) (by norm_num)⟩

/-! ## RiskManager.calculate_var -/

def listMean (l : List ℚ) : ℚ := l.sum / l.length

/-- Population variance, the square of np.std. -/
def listVariance (l : List ℚ) : ℚ := (l.map (fun r => (r - listMean l) ^ 2)).sum / l.length

/-- Embedding of np.percentile with the default linear interpolation. -/
def percentile (l : List ℚ) (q : ℚ) : ℚ :=
  let sorted := l.mergeSort (fun a b => a ≤ b)
  let pos := q / 100 * ((l.length : ℚ) - 1)
  let vlo := sorted.getD ⌊pos⌋.toNat 0
  let vhi := sorted.getD ⌈pos⌉.toNat 0
  vlo + (pos - ⌊pos⌋) * (vhi - vlo)

/-- Result dict of calculate_var.  On empty input the early return carries
only the three VaR keys, so mean_return and std_return are none there,
mirroring the absent dict keys. -/
structure VarResult where
  historical_var : ℚ
  parametric_var : ℚ
  cvar : ℚ
  mean_return : Option ℚ
  std_return : Option ℚ
deriving DecidableEq, Repr

namespace RiskManager

/-- Embedding of RiskManager.calculate_var.  The square root inside np.std
and the normal quantile stats.norm.ppf are float library routines, taken
here as function parameters (floats are rationals); the empty-input branch
never calls them. -/
def calculate_var (sqrtF normPpf : ℚ → ℚ) (returns : List ℚ)
    (confidence_level : ℚ) : VarResult :=
  if returns = [] then
    { historical_var := 0, parametric_var := 0, cvar := 0,
      mean_return := none, std_return := none }
  else
    let historical_var := percentile returns ((1 - confidence_level) * 100)
    let mean_return := listMean returns
    let std_return := sqrtF (listVariance returns)
    let z_score := normPpf (1 - confidence_level)
    let parametric_var := mean_return + z_score * std_return
    let tail := returns.filter (fun r => r ≤ historical_var)
    let cvar := if tail = [] then 0 else |listMean tail|
    { historical_var := |historical_var|, parametric_var := |parametric_var|, cvar := cvar,
      mean_return := some mean_return, std_return := some std_return }

end RiskManager

/-- Claim C8 counterexample: on an empty returns list the result does not
carry zero mean and std fields; those two dict keys are simply absent
(none), only the three VaR fields are present and zero. -/
theorem C8_counterexample :
    ¬ ((RiskManager.calculate_var id id [] (95/100)).historical_var = 0 ∧
       (RiskManager.calculate_var id id [] (95/100)).parametric_var = 0 ∧
       (RiskManager.calculate_var id id [] (95/100)).cvar = 0 ∧
       (RiskManager.calculate_var id id [] (95/100)).mean_return = some 0 ∧
       (RiskManager.calculate_var id id [] (95/100)).std_return = some 0) := by
  intro h
  have hmean := h.2.2.2.1
  simp [RiskManager.calculate_var] at hmean

/-- Claim C8 amended: calculate_var on an empty returns list returns,
without raising and for any square-root and quantile routines and any
confidence level, a dict whose three VaR fields are present and zero and
whose mean and std keys are absent. -/
theorem C8_empty_var (sqrtF normPpf : ℚ → ℚ) (confidence_level : ℚ) :
    RiskManager.calculate_var sqrtF normPpf [] confidence_level =
      { historical_var := 0, parametric_var := 0, cvar := 0,
        mean_return := none, std_return := none } := rfl

/-! ## RiskManager.validate_trade -/

/-- Per-position risk record (the fields of the PositionRisk dataclass that
carry numbers; the last_updated timestamp is irrelevant to validation). -/
structure PositionRisk where
  symbol : String
  position_size : ℚ
  entry_price : ℚ
  current_price : ℚ
  stop_loss : ℚ
  take_profit : ℚ
  volatility : ℚ := 0
  value_at_risk : ℚ := 0
  expected_loss : ℚ := 0
  risk_reward_ratio : ℚ := 0
  margin_requirement : ℚ := 0
deriving DecidableEq, Repr

/-- The six risk rules checked by validate_trade. -/
inductive TradeRule
| position_size_rule
| risk_reward_rule
| concurrent_trades_rule
| exposure_rule
| stop_distance_rule
| daily_loss_rule
deriving DecidableEq, Repr

/-- Error messages appended by validate_trade; each f-string of the source
becomes a constructor carrying the interpolated numbers. -/
inductive TradeError
| position_too_large (pct maxPct : ℚ)
| risk_reward_below (ratio minRr : ℚ)
| invalid_stop_loss
| max_trades_reached (maxTrades : ℕ)
| exposure_exceeds (total limit : ℚ)
| stop_distance_exceeds (pct maxPct : ℚ)
| estimated_loss_exceeds (loss limit : ℚ)
deriving DecidableEq, Repr

/-- The rule a given error message belongs to. -/
def TradeError.rule : TradeError → TradeRule
| .position_too_large _ _ => .position_size_rule
| .risk_reward_below _ _ => .risk_reward_rule
| .invalid_stop_loss => .risk_reward_rule
| .max_trades_reached _ => .concurrent_trades_rule
| .exposure_exceeds _ _ => .exposure_rule
| .stop_distance_exceeds _ _ => .stop_distance_rule
| .estimated_loss_exceeds _ _ => .daily_loss_rule

namespace RiskManager

/-- Check 1 of validate_trade: position size against capital. -/
def positionSizeErrors (cfg : RiskManagerCfg) (position_value : ℚ) : List TradeError :=
  let position_percentage := position_value / cfg.current_capital * 100
  let max_position_pct := (riskLimits cfg.risk_level).max_position_size * 100
  if max_position_pct < position_percentage then
    [.position_too_large position_percentage max_position_pct] else []

/-- Check 2 of validate_trade: risk-reward ratio, with an explicit failure
when the stop loss coincides with the entry price. -/
def riskRewardErrors (cfg : RiskManagerCfg)
    (entry_price stop_loss take_profit : ℚ) : List TradeError :=
  let risk := |entry_price - stop_loss|
  let reward := |take_profit - entry_price|
  if 0 < risk then
    if reward / risk < (riskLimits cfg.risk_level).min_risk_reward then
      [.risk_reward_below (reward / risk) (riskLimits cfg.risk_level).min_risk_reward]
    else []
  else [.invalid_stop_loss]

/-- Check 3 of validate_trade: maximum concurrent trades. -/
def concurrentErrors (cfg : RiskManagerCfg)
    (existing_positions : List (String × PositionRisk)) : List TradeError :=
  if (riskLimits cfg.risk_level).max_concurrent_trades ≤ existing_positions.length then
    [.max_trades_reached (riskLimits cfg.risk_level).max_concurrent_trades] else []

/-- Check 4 of validate_trade: portfolio concentration at the fixed 80
percent exposure ceiling. -/
def exposureErrors (cfg : RiskManagerCfg) (position_value : ℚ)
    (existing_positions : List (String × PositionRisk)) : List TradeError :=
  let total_exposure :=
    (existing_positions.map (fun p => p.2.position_size * p.2.current_price)).sum
      + position_value
  let concentration_limit := cfg.current_capital * (8/10)
  if concentration_limit < total_exposure then
    [.exposure_exceeds total_exposure concentration_limit] else []

/-- Check 5 of validate_trade: stop-loss distance as a fraction of entry. -/
def stopDistanceErrors (cfg : RiskManagerCfg)
    (entry_price stop_loss : ℚ) : List TradeError :=
  let stop_loss_pct := |entry_price - stop_loss| / entry_price
  if (riskLimits cfg.risk_level).stop_loss_pct < stop_loss_pct then
    [.stop_distance_exceeds (stop_loss_pct * 100)
      ((riskLimits cfg.risk_level).stop_loss_pct * 100)] else []

/-- Check 6 of validate_trade: estimated loss against the fixed 5 percent
daily loss ceiling. -/
def dailyLossErrors (cfg : RiskManagerCfg)
    (entry_price stop_loss position_value : ℚ) : List TradeError :=
  let stop_loss_pct := |entry_price - stop_loss| / entry_price
  let daily_loss_limit := cfg.current_capital * (5/100)
  let estimated_loss := position_value * stop_loss_pct
  if daily_loss_limit < estimated_loss then
    [.estimated_loss_exceeds estimated_loss daily_loss_limit] else []

/-- Embedding of RiskManager.validate_trade as the concatenation of the six
sequential checks.  The two divisions by caller data are the raise points
of the source, embedded as none: position_value / current_capital raises
for a zero capital (check 1, so nothing is returned), and the
stop-loss-distance division raises for a zero entry price (check 5, which
the source reaches after computing checks 1 to 4, so again nothing is
returned; hoisting the test does not change the returned value). -/
def validate_trade (cfg : RiskManagerCfg) (symbol : String)
    (entry_price stop_loss take_profit position_size position_value : ℚ)
    (existing_positions : List (String × PositionRisk)) :
    Option (Bool × List TradeError) :=
  if cfg.current_capital = 0 then none
  else if entry_price = 0 then none
  else
    let errors :=
      positionSizeErrors cfg position_value ++
      riskRewardErrors cfg entry_price stop_loss take_profit ++
      concurrentErrors cfg existing_positions ++
      exposureErrors cfg position_value existing_positions ++
      stopDistanceErrors cfg entry_price stop_loss ++
      dailyLossErrors cfg entry_price stop_loss position_value
    some (errors.isEmpty, errors)

/-- Truth of each individual rule violation, read off the source conditions
of validate_trade one rule at a time. -/
def ruleViolated (cfg : RiskManagerCfg)
    (entry_price stop_loss take_profit position_value : ℚ)
    (existing_positions : List (String × PositionRisk)) : TradeRule → Prop
| .position_size_rule =>
    (riskLimits cfg.risk_level).max_position_size * 100 <
      position_value / cfg.current_capital * 100
| .risk_reward_rule =>
    (0 < |entry_price - stop_loss| ∧
      |take_profit - entry_price| / |entry_price - stop_loss| <
        (riskLimits cfg.risk_level).min_risk_reward) ∨
    ¬ (0 < |entry_price - stop_loss|)
| .concurrent_trades_rule =>
    (riskLimits cfg.risk_level).max_concurrent_trades ≤ existing_positions.length
| .exposure_rule =>
    cfg.current_capital * (8/10) <
      (existing_positions.map (fun p => p.2.position_size * p.2.current_price)).sum
        + position_value
| .stop_distance_rule =>
    (riskLimits cfg.risk_level).stop_loss_pct < |entry_price - stop_loss| / entry_price
| .daily_loss_rule =>
    cfg.current_capital * (5/100) < position_value * (|entry_price - stop_loss| / entry_price)

instance (cfg : RiskManagerCfg) (entry_price stop_loss take_profit position_value : ℚ)
    (existing_positions : List (String × PositionRisk)) (r : TradeRule) :
    Decidable (ruleViolated cfg entry_price stop_loss take_profit position_value
      existing_positions r) := by
  cases r <;> simp only [ruleViolated] <;> infer_instance

theorem positionSizeErrors_countP (cfg : RiskManagerCfg) (pv : ℚ) :
    (positionSizeErrors cfg pv).countP
        (fun x => decide (x.rule = TradeRule.position_size_rule)) =
      if (riskLimits cfg.risk_level).max_position_size * 100 <
          pv / cfg.current_capital * 100 then 1 else 0 := by
  simp only [positionSizeErrors]
  split_ifs <;> simp [TradeError.rule]

theorem positionSizeErrors_countP_ne (cfg : RiskManagerCfg) (pv : ℚ) (r : TradeRule)
    (hr : TradeRule.position_size_rule ≠ r) :
    (positionSizeErrors cfg pv).countP (fun x => decide (x.rule = r)) = 0 := by
  simp only [positionSizeErrors]
  split_ifs <;> simp [TradeError.rule, hr]

theorem riskRewardErrors_countP (cfg : RiskManagerCfg) (e s t : ℚ) :
    (riskRewardErrors cfg e s t).countP
        (fun x => decide (x.rule = TradeRule.risk_reward_rule)) =
      if (0 < |e - s| ∧ |t - e| / |e - s| < (riskLimits cfg.risk_level).min_risk_reward) ∨
          ¬ (0 < |e - s|) then 1 else 0 := by
  simp only [riskRewardErrors]
  by_cases h1 : 0 < |e - s|
  · by_cases h2 : |t - e| / |e - s| < (riskLimits cfg.risk_level).min_risk_reward
    · rw [if_pos h1, if_pos h2, if_pos (Or.inl ⟨h1, h2⟩)]
      simp [TradeError.rule]
    · rw [if_pos h1, if_neg h2, if_neg ?_]
      · simp
      · rintro (⟨_, hc⟩ | hc)
        · exact h2 hc
        · exact hc h1
  · rw [if_neg h1, if_pos (Or.inr h1)]
    simp [TradeError.rule]

theorem riskRewardErrors_countP_ne (cfg : RiskManagerCfg) (e s t : ℚ) (r : TradeRule)
    (hr : TradeRule.risk_reward_rule ≠ r) :
    (riskRewardErrors cfg e s t).countP (fun x => decide (x.rule = r)) = 0 := by
  simp only [riskRewardErrors]
  split_ifs <;> simp [TradeError.rule, hr]

theorem concurrentErrors_countP (cfg : RiskManagerCfg)
    (ex : List (String × PositionRisk)) :
    (concurrentErrors cfg ex).countP
        (fun x => decide (x.rule = TradeRule.concurrent_trades_rule)) =
      if (riskLimits cfg.risk_level).max_concurrent_trades ≤ ex.length then 1 else 0 := by
  simp only [concurrentErrors]
  split_ifs <;> simp [TradeError.rule]

theorem concurrentErrors_countP_ne (cfg : RiskManagerCfg)
    (ex : List (String × PositionRisk)) (r : TradeRule)
    (hr : TradeRule.concurrent_trades_rule ≠ r) :
    (concurrentErrors cfg ex).countP (fun x => decide (x.rule = r)) = 0 := by
  simp only [concurrentErrors]
  split_ifs <;> simp [TradeError.rule, hr]

theorem exposureErrors_countP (cfg : RiskManagerCfg) (pv : ℚ)
    (ex : List (String × PositionRisk)) :
    (exposureErrors cfg pv ex).countP
        (fun x => decide (x.rule = TradeRule.exposure_rule)) =
      if cfg.current_capital * (8/10) <
          (ex.map (fun p => p.2.position_size * p.2.current_price)).sum + pv then 1 else 0 := by
  simp only [exposureErrors]
  split_ifs <;> simp [TradeError.rule]

theorem exposureErrors_countP_ne (cfg : RiskManagerCfg) (pv : ℚ)
    (ex : List (String × PositionRisk)) (r : TradeRule)
    (hr : TradeRule.exposure_rule ≠ r) :
    (exposureErrors cfg pv ex).countP (fun x => decide (x.rule = r)) = 0 := by
  simp only [exposureErrors]
  split_ifs <;> simp [TradeError.rule, hr]

theorem stopDistanceErrors_countP (cfg : RiskManagerCfg) (e s : ℚ) :
    (stopDistanceErrors cfg e s).countP
        (fun x => decide (x.rule = TradeRule.stop_distance_rule)) =
      if (riskLimits cfg.risk_level).stop_loss_pct < |e - s| / e then 1 else 0 := by
  simp only [stopDistanceErrors]
  split_ifs <;> simp [TradeError.rule]

theorem stopDistanceErrors_countP_ne (cfg : RiskManagerCfg) (e s : ℚ) (r : TradeRule)
    (hr : TradeRule.stop_distance_rule ≠ r) :
    (stopDistanceErrors cfg e s).countP (fun x => decide (x.rule = r)) = 0 := by
  simp only [stopDistanceErrors]
  split_ifs <;> simp [TradeError.rule, hr]

theorem dailyLossErrors_countP (cfg : RiskManagerCfg) (e s pv : ℚ) :
    (dailyLossErrors cfg e s pv).countP
        (fun x => decide (x.rule = TradeRule.daily_loss_rule)) =
      if cfg.current_capital * (5/100) < pv * (|e - s| / e) then 1 else 0 := by
  simp only [dailyLossErrors]
  split_ifs <;> simp [TradeError.rule]

theorem dailyLossErrors_countP_ne (cfg : RiskManagerCfg) (e s pv : ℚ) (r : TradeRule)
    (hr : TradeRule.daily_loss_rule ≠ r) :
    (dailyLossErrors cfg e s pv).countP (fun x => decide (x.rule = r)) = 0 := by
  simp only [dailyLossErrors]
  split_ifs <;> simp [TradeError.rule, hr]

end RiskManager

/-- Claim C4: for every input on which validate_trade returns (capital and
entry price non-zero), the returned reason list carries exactly one message
for each violated rule among the six (all simultaneous violations are
accumulated, none short-circuits the rest), and the returned boolean is
true exactly when that list is empty. -/
theorem C4_validate_trade_accumulates (cfg : RiskManagerCfg) (symbol : String)
    (entry_price stop_loss take_profit position_size position_value : ℚ)
    (existing_positions : List (String × PositionRisk))
    (hcap : cfg.current_capital ≠ 0) (hentry : entry_price ≠ 0) :
    ∃ ok errs, RiskManager.validate_trade cfg symbol entry_price stop_loss take_profit
        position_size position_value existing_positions = some (ok, errs) ∧
      (ok = true ↔ errs = []) ∧
      ∀ r : TradeRule, errs.countP (fun x => decide (x.rule = r)) =
        if RiskManager.ruleViolated cfg entry_price stop_loss take_profit position_value
            existing_positions r then 1 else 0 := by
  rw [RiskManager.validate_trade, if_neg hcap, if_neg hentry]
  refine ⟨_, _, rfl, List.isEmpty_iff, ?_⟩
  intro r
  simp only [List.countP_append]
  cases r
  case position_size_rule =>
    rw [RiskManager.positionSizeErrors_countP,
      RiskManager.riskRewardErrors_countP_ne _ _ _ _ _ (by decide),
      RiskManager.concurrentErrors_countP_ne _ _ _ (by decide),
      RiskManager.exposureErrors_countP_ne _ _ _ _ (by decide),
      RiskManager.stopDistanceErrors_countP_ne _ _ _ _ (by decide),
      RiskManager.dailyLossErrors_countP_ne _ _ _ _ _ (by decide)]
    simp [RiskManager.ruleViolated]
  case risk_reward_rule =>
    rw [RiskManager.positionSizeErrors_countP_ne _ _ _ (by decide),
      RiskManager.riskRewardErrors_countP,
      RiskManager.concurrentErrors_countP_ne _ _ _ (by decide),
      RiskManager.exposureErrors_countP_ne _ _ _ _ (by decide),
      RiskManager.stopDistanceErrors_countP_ne _ _ _ _ (by decide),
      RiskManager.dailyLossErrors_countP_ne _ _ _ _ _ (by decide)]
    simp [RiskManager.ruleViolated]
  case concurrent_trades_rule =>
    rw [RiskManager.positionSizeErrors_countP_ne _ _ _ (by decide),
      RiskManager.riskRewardErrors_countP_ne _ _ _ _ _ (by decide),
      RiskManager.concurrentErrors_countP,
      RiskManager.exposureErrors_countP_ne _ _ _ _ (by decide),
      RiskManager.stopDistanceErrors_countP_ne _ _ _ _ (by decide),
      RiskManager.dailyLossErrors_countP_ne _ _ _ _ _ (by decide)]
    simp [RiskManager.ruleViolated]
  case exposure_rule =>
    rw [RiskManager.positionSizeErrors_countP_ne _ _ _ (by decide),
      RiskManager.riskRewardErrors_countP_ne _ _ _ _ _ (by decide),
      RiskManager.concurrentErrors_countP_ne _ _ _ (by decide),
      RiskManager.exposureErrors_countP,
      RiskManager.stopDistanceErrors_countP_ne _ _ _ _ (by decide),
      RiskManager.dailyLossErrors_countP_ne _ _ _ _ _ (by decide)]
    simp [RiskManager.ruleViolated]
  case stop_distance_rule =>
    rw [RiskManager.positionSizeErrors_countP_ne _ _ _ (by decide),
      RiskManager.riskRewardErrors_countP_ne _ _ _ _ _ (by decide),
      RiskManager.concurrentErrors_countP_ne _ _ _ (by decide),
      RiskManager.exposureErrors_countP_ne _ _ _ _ (by decide),
      RiskManager.stopDistanceErrors_countP,
      RiskManager.dailyLossErrors_countP_ne _ _ _ _ _ (by decide)]
    simp [RiskManager.ruleViolated]
  case daily_loss_rule =>
    rw [RiskManager.positionSizeErrors_countP_ne _ _ _ (by decide),
      RiskManager.riskRewardErrors_countP_ne _ _ _ _ _ (by decide),
      RiskManager.concurrentErrors_countP_ne _ _ _ (by decide),
      RiskManager.exposureErrors_countP_ne _ _ _ _ (by decide),
      RiskManager.stopDistanceErrors_countP_ne _ _ _ _ (by decide),
      RiskManager.dailyLossErrors_countP]
    simp [RiskManager.ruleViolated]

/-- Claim C4 counterexample: validate_trade quantified over every input
fails at entry price 0 — the stop-loss-distance division raises
ZeroDivisionError (none here), so no reason list is returned at all. -/
theorem C4_counterexample :
    RiskManager.validate_trade ⟨10000, 2/100, .aggressive⟩ "ADA/USDT" 0 (1/2) 1 10 5 [] =
      none := by
  norm_num [RiskManager.validate_trade]

/-- Witness for C4_validate_trade_accumulates: Moderate level, capital
10000, position value 1500 (15 percent, violating the 10 percent cap) and
risk-reward 0.5 (violating the 1.5 minimum) — two violations accumulate. -/
theorem C4_validate_trade_accumulates_witness :
    ((⟨10000, 2/100, .moderate⟩ : RiskManagerCfg).current_capital ≠ 0) ∧ ((100:ℚ) ≠ 0) ∧
    (∃ ok errs, RiskManager.validate_trade ⟨10000, 2/100, .moderate⟩ "BTC/USDT"
        100 99 (201/2) 15 1500 [] = some (ok, errs) ∧
      (ok = true ↔ errs = []) ∧
      ∀ r : TradeRule, errs.countP (fun x => decide (x.rule = r)) =
        if RiskManager.ruleViolated ⟨10000, 2/100, .moderate⟩ 100 99 (201/2) 1500 [] r
        then 1 else 0) :=
  ⟨by norm_num, by norm_num,
    C4_validate_trade_accumulates ⟨10000, 2/100, .moderate⟩ "BTC/USDT"
      100 99 (201/2) 15 1500 [] (by norm_num) (by norm_num)⟩

/-- Claim C2 counterexample: validate_trade raises ZeroDivisionError (none
in this embedding) for entry price 0, because the stop-loss-distance check
divides by the entry price. -/
theorem C2_counterexample :
    RiskManager.validate_trade ⟨10000, 2/100, .moderate⟩ "BTC/USDT" 0 1 2 1 100 [] =
      none := by
  norm_num [RiskManager.validate_trade]

/-- Claim C2 amended: calculate_position_size with equal entry and stop
returns size 0 with an empty metrics payload; calculate_var on an empty
list returns the all-zero record without error; validate_trade returns
normally whenever capital and entry price are non-zero — but a zero entry
price makes the stop-loss-distance division raise ZeroDivisionError (and a
zero capital makes the position-percentage division raise). -/
theorem C2_degenerate_inputs :
    (∀ (cfg : RiskManagerCfg) (entry : ℚ) (ra : Option ℚ),
      RiskManager.calculate_position_size cfg entry entry ra = (0, none)) ∧
    (∀ (sqrtF normPpf : ℚ → ℚ) (conf : ℚ),
      RiskManager.calculate_var sqrtF normPpf [] conf =
        { historical_var := 0, parametric_var := 0, cvar := 0,
          mean_return := none, std_return := none }) ∧
    (∀ (cfg : RiskManagerCfg) (symbol : String) (e s t ps pv : ℚ)
        (ex : List (String × PositionRisk)),
      cfg.current_capital ≠ 0 → e ≠ 0 →
      (RiskManager.validate_trade cfg symbol e s t ps pv ex).isSome) := by
  refine ⟨?_, ?_, ?_⟩
  · intro cfg entry ra
    simp [RiskManager.calculate_position_size]
  · intro sqrtF normPpf conf
    rfl
  · intro cfg symbol e s t ps pv ex hcap hentry
    rw [RiskManager.validate_trade, if_neg hcap, if_neg hentry]
    rfl

/-- Witness for C2_degenerate_inputs at a concrete non-degenerate
validate_trade call. -/
theorem C2_degenerate_inputs_witness :
    ((⟨10000, 2/100, .moderate⟩ : RiskManagerCfg).current_capital ≠ 0) ∧ ((100:ℚ) ≠ 0) ∧
    (RiskManager.validate_trade ⟨10000, 2/100, .moderate⟩ "ETH/USDT"
      100 95 110 2 200 []).isSome :=
  ⟨by norm_num, by norm_num,
    C2_degenerate_inputs.2.2 ⟨10000, 2/100, .moderate⟩ "ETH/USDT" 100 95 110 2 200 []
      (by norm_num) (by norm_num)⟩

/-! ## Order data model (OrderExecutor.py) -/

inductive OrderSide
| buy
| sell
deriving DecidableEq, Repr

inductive OrderType
| market
| limit
| stop_market
| stop_limit
| take_profit_market
| take_profit_limit
| trailing_stop
deriving DecidableEq, Repr

inductive OrderStatus
| new
| pending_new
| partially_filled
| filled
| pending_cancel
| cancelled
| rejected
| expired
deriving DecidableEq, Repr

inductive OrderTimeInForce
| GTC
| IOC
| FOK
| DAY
deriving DecidableEq, Repr

/-- Embedding of the Order dataclass.  Decimal amounts and prices are exact
rationals; datetime timestamps are abstract ticks (naturals); the free-form
tag map is a string association list. -/
structure Order where
  id : String
  symbol : String
  side : OrderSide
  order_type : OrderType
  amount : ℚ
  price : Option ℚ := none
  stop_price : Option ℚ := none
  trigger_price : Option ℚ := none
  time_in_force : OrderTimeInForce := .GTC
  status : OrderStatus := .new
  filled_amount : ℚ := 0
  average_price : ℚ := 0
  commission : ℚ := 0
  commission_asset : String := ""
  created_at : ℕ := 0
  updated_at : ℕ := 0
  client_order_id : String := ""
  parent_order_id : Option String := none
  iceberg_amount : Option ℚ := none
  reduce_only : Bool := false
  post_only : Bool := false
  tags : List (String × String) := []
deriving DecidableEq, Repr

def Order.is_active (o : Order) : Bool :=
  match o.status with
  | .new | .pending_new | .partially_filled => true
  | _ => false

def Order.is_filled (o : Order) : Bool := o.status = OrderStatus.filled

def Order.is_cancellable (o : Order) : Bool :=
  match o.status with
  | .new | .partially_filled => true
  | _ => false

def Order.get_remaining_amount (o : Order) : ℚ := o.amount - o.filled_amount

/-- Embedding of Order.update_fill, the only mutator of fill state: add the
fill to the cumulative amount, recompute the volume-weighted average price,
accumulate the commission, and set the status from the new filled amount.
Arithmetic here is exact rational, an idealization adequate for the bound
and status claims; the Decimal default-context semantics, whose division
rounds to 28 significant digits, is Order.update_fill_dec further below
and is what the arithmetic-exactness claim is settled against. -/
def Order.update_fill (o : Order) (fill_amount fill_price commission : ℚ)
    (now : ℕ) : Order :=
  let filled_amount := o.filled_amount + fill_amount
  let total_value := o.average_price * (filled_amount - fill_amount) + fill_price * fill_amount
  { o with
    filled_amount := filled_amount,
    average_price := if 0 < filled_amount then total_value / filled_amount else 0,
    commission := o.commission + commission,
    status := if o.amount ≤ filled_amount then .filled else .partially_filled,
    updated_at := now }

/-- One fill event: the arguments of one update_fill call. -/
structure Fill where
  amount : ℚ
  price : ℚ
  commission : ℚ := 0
deriving DecidableEq, Repr

/-- Sequential application of a list of fills to an order. -/
def Order.apply_fills (o : Order) (fills : List Fill) : Order :=
  fills.foldl (fun acc f => acc.update_fill f.amount f.price f.commission 0) o

/-- Total filled amount of a fill list. -/
def fillTotal (fills : List Fill) : ℚ := (fills.map (fun f => f.amount)).sum

/-- Total notional (amount times price) of a fill list. -/
def fillNotional (fills : List Fill) : ℚ := (fills.map (fun f => f.amount * f.price)).sum

theorem apply_fills_tracking (fills : List Fill) (o : Order)
    (hpos : ∀ f ∈ fills, 0 < f.amount) (h0 : 0 ≤ o.filled_amount) :
    (o.apply_fills fills).filled_amount = o.filled_amount + fillTotal fills ∧
    (o.apply_fills fills).average_price * (o.apply_fills fills).filled_amount =
      o.average_price * o.filled_amount + fillNotional fills ∧
    (o.apply_fills fills).amount = o.amount ∧
    (fills ≠ [] → (o.apply_fills fills).status =
      (if o.amount ≤ (o.apply_fills fills).filled_amount
       then OrderStatus.filled else OrderStatus.partially_filled)) := by
  induction fills generalizing o with
  | nil =>
    simp [Order.apply_fills, fillTotal, fillNotional]
  | cons f rest ih =>
    have hf : 0 < f.amount := hpos f (by simp)
    have hrest : ∀ g ∈ rest, 0 < g.amount := fun g hg => hpos g (by simp [hg])
    set o2 := o.update_fill f.amount f.price f.commission 0 with ho2
    have hfa : o2.filled_amount = o.filled_amount + f.amount := rfl
    have hfa_pos : 0 < o2.filled_amount := by
      rw [hfa]; linarith
    have havg : o2.average_price = (o.average_price * o.filled_amount + f.price * f.amount) /
        o2.filled_amount := by
      show (if 0 < o.filled_amount + f.amount then _ else 0) = _
      rw [if_pos (by linarith)]
      congr 1
      ring
    have hamt : o2.amount = o.amount := rfl
    have hst : o2.status = (if o.amount ≤ o2.filled_amount
        then OrderStatus.filled else OrderStatus.partially_filled) := rfl
    have happ : o.apply_fills (f :: rest) = o2.apply_fills rest := rfl
    obtain ⟨ih1, ih2, ih3, ih4⟩ := ih o2 hrest hfa_pos.le
    refine ⟨?_, ?_, ?_, ?_⟩
    · rw [happ, ih1, hfa, fillTotal]
      simp [fillTotal]
      ring
    · rw [happ, ih2, havg, div_mul_cancel₀ _ (ne_of_gt hfa_pos)]
      simp [fillNotional]
      ring
    · rw [happ, ih3, hamt]
    · intro _
      rw [happ]
      rcases eq_or_ne rest [] with hr | hr
      · subst hr
        simpa [Order.apply_fills, hamt] using hst
      · rw [ih4 hr, hamt]

/-- Helper: under exact rational arithmetic, a finite sequence of positive
fills summing exactly to the order amount leaves the order filled, with
filled_amount equal to the amount and average_price the exact
volume-weighted mean.  The claim theorem about the Decimal-context run
reduces to this statement when no context rounding occurs. -/
theorem apply_fills_exact_vwap (o : Order) (fills : List Fill)
    (hfresh_f : o.filled_amount = 0) (hfresh_a : o.average_price = 0)
    (hpos : ∀ f ∈ fills, 0 < f.amount) (hsum : fillTotal fills = o.amount)
    (hne : fills ≠ []) :
    (o.apply_fills fills).status = OrderStatus.filled ∧
    (o.apply_fills fills).filled_amount = o.amount ∧
    (o.apply_fills fills).average_price = fillNotional fills / o.amount := by
  have hA : 0 < o.amount := by
    rw [← hsum]
    rcases fills with _ | ⟨f, rest⟩
    · exact absurd rfl hne
    · have hf : 0 < f.amount := hpos f (by simp)
      have hrest : 0 ≤ (rest.map (fun g => g.amount)).sum :=
        List.sum_nonneg (by
          intro x hx
          obtain ⟨g, hg, hgx⟩ := List.mem_map.mp hx
          exact hgx ▸ (hpos g (by simp [hg])).le)
      simp only [fillTotal, List.map_cons, List.sum_cons]
      linarith
  obtain ⟨h1, h2, h3, h4⟩ := apply_fills_tracking fills o hpos (le_of_eq hfresh_f.symm)
  have hfill : (o.apply_fills fills).filled_amount = o.amount := by
    rw [h1, hfresh_f, hsum, zero_add]
  refine ⟨?_, hfill, ?_⟩
  · rw [h4 hne, hfill, if_pos le_rfl]
  · have h2a : (o.apply_fills fills).average_price * o.amount = fillNotional fills := by
      rw [← hfill, h2, hfresh_f, hfresh_a]
      ring
    field_simp [ne_of_gt hA] at h2a ⊢
    linarith [h2a]

/-! ## Decimal default-context arithmetic.
The source stores amounts, prices and commissions as Python Decimal and
computes under the default context: every arithmetic operation returns the
exact result correctly rounded to 28 significant decimal digits, ties to
even.  Division is the operation that actually rounds on ordinary fill
data (a quotient such as 500/3 is not representable), so the
volume-weighted average of Order.update_fill drifts from the exact mean. -/

/-- Correct rounding of a rational to 28 significant decimal digits with
ties to even: what the Python Decimal default context applies to every
operation result in Order.update_fill. -/
def decRound28 (x : ℚ) : ℚ :=
  if x = 0 then 0
  else
    let e := Int.log 10 |x|
    (roundHalfEven (x * (10:ℚ) ^ (27 - e)) : ℚ) * (10:ℚ) ^ (e - 27)

/-- Decimal context addition: exact sum rounded to context precision. -/
def decAdd (a b : ℚ) : ℚ := decRound28 (a + b)

/-- Decimal context subtraction. -/
def decSub (a b : ℚ) : ℚ := decRound28 (a - b)

/-- Decimal context multiplication. -/
def decMul (a b : ℚ) : ℚ := decRound28 (a * b)

/-- Decimal context division: the correctly rounded quotient. -/
def decDiv (a b : ℚ) : ℚ := decRound28 (a / b)

/-- A value the context rounding leaves unchanged: representable at 28
significant digits. -/
def decExact (x : ℚ) : Prop := decRound28 x = x

theorem roundHalfEven_intCast (n : ℤ) : roundHalfEven (n : ℚ) = n := by
  unfold roundHalfEven
  norm_num [Int.floor_intCast]

theorem int_log10_eq (r : ℚ) (e : ℤ) (hr : 0 < r)
    (h1 : (10:ℚ) ^ e ≤ r) (h2 : r < (10:ℚ) ^ (e + 1)) : Int.log 10 r = e := by
  have hb : 1 < (10:ℕ) := by norm_num
  have h1a : ((10:ℕ):ℚ) ^ e ≤ r := by exact_mod_cast h1
  have h2a : r < ((10:ℕ):ℚ) ^ (e + 1) := by exact_mod_cast h2
  have hle := (Int.zpow_le_iff_le_log hb hr).mp h1a
  have hlt := (Int.lt_zpow_iff_log_lt hb hr).mp h2a
  omega

theorem decRound28_eval_pos (x : ℚ) (e z : ℤ) (hx : 0 < x)
    (h1 : (10:ℚ) ^ e ≤ x) (h2 : x < (10:ℚ) ^ (e + 1))
    (hz : roundHalfEven (x * (10:ℚ) ^ (27 - e)) = z) :
    decRound28 x = (z : ℚ) * (10:ℚ) ^ (e - 27) := by
  have hne : x ≠ 0 := ne_of_gt hx
  have habs : |x| = x := abs_of_pos hx
  simp only [decRound28]
  rw [if_neg hne, habs, int_log10_eq x e hx h1 h2, hz]

theorem decRound28_of_scaled_int (x : ℚ) (e n : ℤ) (hx : 0 < x)
    (h1 : (10:ℚ) ^ e ≤ x) (h2 : x < (10:ℚ) ^ (e + 1))
    (h3 : x * (10:ℚ) ^ (27 - e) = (n : ℚ)) : decRound28 x = x := by
  have hz : roundHalfEven (x * (10:ℚ) ^ (27 - e)) = n := by
    rw [h3, roundHalfEven_intCast]
  have he : (27 - e) + (e - 27) = 0 := by ring
  rw [decRound28_eval_pos x e n hx h1 h2 hz, ← h3, mul_assoc,
    ← zpow_add₀ (by norm_num : (10:ℚ) ≠ 0), he, zpow_zero, mul_one]

theorem decRound28_zero : decRound28 0 = 0 := by
  simp [decRound28]

theorem decRound28_one : decRound28 1 = 1 :=
  decRound28_of_scaled_int 1 0 (10 ^ 27) (by norm_num) (by norm_num) (by norm_num)
    (by norm_num)

theorem decRound28_two : decRound28 2 = 2 :=
  decRound28_of_scaled_int 2 0 (2 * 10 ^ 27) (by norm_num) (by norm_num) (by norm_num)
    (by norm_num)

theorem decRound28_three : decRound28 3 = 3 :=
  decRound28_of_scaled_int 3 0 (3 * 10 ^ 27) (by norm_num) (by norm_num) (by norm_num)
    (by norm_num)

theorem decRound28_100 : decRound28 100 = 100 :=
  decRound28_of_scaled_int 100 2 (10 ^ 27) (by norm_num) (by norm_num) (by norm_num)
    (by norm_num)

theorem decRound28_150 : decRound28 150 = 150 :=
  decRound28_of_scaled_int 150 2 (15 * 10 ^ 26) (by norm_num) (by norm_num) (by norm_num)
    (by norm_num)

theorem decRound28_200 : decRound28 200 = 200 :=
  decRound28_of_scaled_int 200 2 (2 * 10 ^ 27) (by norm_num) (by norm_num) (by norm_num)
    (by norm_num)

theorem decRound28_300 : decRound28 300 = 300 :=
  decRound28_of_scaled_int 300 2 (3 * 10 ^ 27) (by norm_num) (by norm_num) (by norm_num)
    (by norm_num)

theorem decRound28_400 : decRound28 400 = 400 :=
  decRound28_of_scaled_int 400 2 (4 * 10 ^ 27) (by norm_num) (by norm_num) (by norm_num)
    (by norm_num)

theorem decRound28_500 : decRound28 500 = 500 :=
  decRound28_of_scaled_int 500 2 (5 * 10 ^ 27) (by norm_num) (by norm_num) (by norm_num)
    (by norm_num)

/-- 500/3 is not representable at 28 significant digits: the context
rounds it to 166.6666666666666666666666667, the value Python Decimal
division returns. -/
theorem decRound28_500_div_3 :
    decRound28 (500/3) = 1666666666666666666666666667 / 10 ^ 25 := by
  have hz : roundHalfEven ((500/3 : ℚ) * (10:ℚ) ^ ((27:ℤ) - 2)) =
      1666666666666666666666666667 := by
    norm_num [roundHalfEven]
  have h := decRound28_eval_pos (500/3) 2 1666666666666666666666666667 (by norm_num)
    (by norm_num) (by norm_num) hz
  rw [h, show ((2:ℤ) - 27) = (-25 : ℤ) by norm_num, zpow_neg]
  norm_num

/-- Embedding of Order.update_fill under the Decimal default-context
semantics of the source: every intermediate operation result is rounded to
28 significant digits.  Order.update_fill above is its exact-arithmetic
idealization, adequate for the claims that do not rest on arithmetic
exactness. -/
def Order.update_fill_dec (o : Order) (fill_amount fill_price commission : ℚ)
    (now : ℕ) : Order :=
  let filled_amount := decAdd o.filled_amount fill_amount
  let total_value := decAdd (decMul o.average_price (decSub filled_amount fill_amount))
    (decMul fill_price fill_amount)
  { o with
    filled_amount := filled_amount,
    average_price := if 0 < filled_amount then decDiv total_value filled_amount else 0,
    commission := decAdd o.commission commission,
    status := if o.amount ≤ filled_amount then .filled else .partially_filled,
    updated_at := now }

/-- Sequential Decimal-context application of a list of fills. -/
def Order.apply_fills_dec (o : Order) (fills : List Fill) : Order :=
  fills.foldl (fun acc f => acc.update_fill_dec f.amount f.price f.commission 0) o

/-- No context rounding happens in the one update_fill call of this fill
on this order: each of the seven operation results is representable at 28
significant digits. -/
def DecStepExact (o : Order) (f : Fill) : Prop :=
  decExact (o.filled_amount + f.amount) ∧
  decExact (o.filled_amount + f.amount - f.amount) ∧
  decExact (o.average_price * (o.filled_amount + f.amount - f.amount)) ∧
  decExact (f.price * f.amount) ∧
  decExact (o.average_price * (o.filled_amount + f.amount - f.amount) +
    f.price * f.amount) ∧
  decExact ((o.average_price * (o.filled_amount + f.amount - f.amount) +
    f.price * f.amount) / (o.filled_amount + f.amount)) ∧
  decExact (o.commission + f.commission)

/-- No context rounding happens anywhere along the run of these fills. -/
def DecExactFills : Order → List Fill → Prop
| _, [] => True
| o, f :: rest =>
  DecStepExact o f ∧
  DecExactFills (o.update_fill_dec f.amount f.price f.commission 0) rest

theorem update_fill_dec_eq_of_exact (o : Order) (f : Fill) (h : DecStepExact o f) :
    o.update_fill_dec f.amount f.price f.commission 0 =
      o.update_fill f.amount f.price f.commission 0 := by
  obtain ⟨h1, h2, h3, h4, h5, h6, h7⟩ := h
  rw [decExact] at h1 h2 h3 h4 h5 h6 h7
  simp only [Order.update_fill_dec, Order.update_fill, decAdd, decSub, decMul, decDiv,
    h1, h2, h3, h4, h5, h6, h7]

theorem apply_fills_dec_eq_of_exact (fills : List Fill) (o : Order)
    (h : DecExactFills o fills) : o.apply_fills_dec fills = o.apply_fills fills := by
  induction fills generalizing o with
  | nil => rfl
  | cons f rest ih =>
    obtain ⟨h1, h2⟩ := h
    have he := update_fill_dec_eq_of_exact o f h1
    show (o.update_fill_dec f.amount f.price f.commission 0).apply_fills_dec rest =
      (o.update_fill f.amount f.price f.commission 0).apply_fills rest
    rw [he] at h2
    rw [he]
    exact ih _ h2

/-- Claim C3 amended: under the Decimal default-context semantics of the
source, a finite sequence of positive fills summing exactly to the order
amount leaves the order filled with filled_amount equal to the amount, and
average_price equal to the exact volume-weighted mean Σ(aᵢpᵢ)/A, provided
no intermediate operation result needs context rounding (each is
representable at 28 significant digits, as with fills 1 at 100 and 1 at
200).  Without that proviso the stored average is the correctly rounded
quotient, which differs from the exact mean (see the counterexample). -/
theorem C3_fill_sequence (o : Order) (fills : List Fill)
    (hfresh_f : o.filled_amount = 0) (hfresh_a : o.average_price = 0)
    (hpos : ∀ f ∈ fills, 0 < f.amount) (hsum : fillTotal fills = o.amount)
    (hne : fills ≠ []) (hexact : DecExactFills o fills) :
    (o.apply_fills_dec fills).status = OrderStatus.filled ∧
    (o.apply_fills_dec fills).filled_amount = o.amount ∧
    (o.apply_fills_dec fills).average_price = fillNotional fills / o.amount := by
  rw [apply_fills_dec_eq_of_exact fills o hexact]
  exact apply_fills_exact_vwap o fills hfresh_f hfresh_a hpos hsum hne

/-- A fresh limit order of amount 3 for the Decimal rounding counterexample. -/
def c3order : Order :=
  { id := "o3", symbol := "BTC/USDT", side := .buy, order_type := .limit, amount := 3 }

theorem c3order_step1 : c3order.update_fill_dec 1 100 0 0 =
    { c3order with
      filled_amount := 1, average_price := 100,
      status := OrderStatus.partially_filled } := by
  simp only [Order.update_fill_dec, decAdd, decSub, decMul, decDiv, c3order]
  norm_num [decRound28_zero, decRound28_one, decRound28_100]

theorem c3order_step2 :
    ({ c3order with
       filled_amount := 1, average_price := 100,
       status := OrderStatus.partially_filled } : Order).update_fill_dec 2 200 0 0 =
    { c3order with
      filled_amount := 3,
      average_price := 1666666666666666666666666667 / 10 ^ 25,
      status := OrderStatus.filled } := by
  simp only [Order.update_fill_dec, decAdd, decSub, decMul, decDiv, c3order]
  norm_num [decRound28_zero, decRound28_one, decRound28_three, decRound28_100,
    decRound28_400, decRound28_500, decRound28_500_div_3]

/-- Claim C3 counterexample: the positive fills 1 at 100 and 2 at 200 sum
exactly to the fresh order amount 3, yet under the Decimal 28-digit
context the stored average_price is 166.6666666666666666666666667, not the
exact volume-weighted mean 500/3 — the division of update_fill rounds, so
the exact-equality claim fails in the program. -/
theorem C3_counterexample :
    (∀ f ∈ ([⟨1, 100, 0⟩, ⟨2, 200, 0⟩] : List Fill), 0 < f.amount) ∧
    fillTotal [⟨1, 100, 0⟩, ⟨2, 200, 0⟩] = c3order.amount ∧
    c3order.filled_amount = 0 ∧ c3order.average_price = 0 ∧
    (c3order.apply_fills_dec [⟨1, 100, 0⟩, ⟨2, 200, 0⟩]).average_price =
      1666666666666666666666666667 / 10 ^ 25 ∧
    fillNotional [⟨1, 100, 0⟩, ⟨2, 200, 0⟩] / c3order.amount = 500 / 3 ∧
    (1666666666666666666666666667 : ℚ) / 10 ^ 25 ≠ 500 / 3 := by
  refine ⟨?_, ?_, rfl, rfl, ?_, ?_, ?_⟩
  · intro f hf
    simp only [List.mem_cons, List.mem_singleton] at hf
    rcases hf with h | h | h
    · rw [h]
      norm_num
    · rw [h]
      norm_num
    · exact absurd h (by simp)
  · norm_num [fillTotal, c3order]
  · have happ : c3order.apply_fills_dec [⟨1, 100, 0⟩, ⟨2, 200, 0⟩] =
        (c3order.update_fill_dec 1 100 0 0).update_fill_dec 2 200 0 0 := rfl
    rw [happ, c3order_step1, c3order_step2]
  · norm_num [fillNotional, c3order]
  · norm_num

/-- A fresh limit order of amount 2 for the round-trip witness. -/
def c3worder : Order :=
  { id := "ord1", symbol := "BTC/USDT", side := .buy, order_type := .limit, amount := 2 }

theorem c3worder_step1 : c3worder.update_fill_dec 1 100 0 0 =
    { c3worder with
      filled_amount := 1, average_price := 100,
      status := OrderStatus.partially_filled } := by
  simp only [Order.update_fill_dec, decAdd, decSub, decMul, decDiv, c3worder]
  norm_num [decRound28_zero, decRound28_one, decRound28_100]

/-- Witness for C3_fill_sequence: an order of amount 2 filled by 1 at 100
and 1 at 200 — a run in which every intermediate Decimal result is exact —
ends filled with average price exactly 150. -/
theorem C3_fill_sequence_witness :
    c3worder.filled_amount = 0 ∧ c3worder.average_price = 0 ∧
    (∀ f ∈ ([⟨1, 100, 0⟩, ⟨1, 200, 0⟩] : List Fill), 0 < f.amount) ∧
    fillTotal [⟨1, 100, 0⟩, ⟨1, 200, 0⟩] = c3worder.amount ∧
    DecExactFills c3worder [⟨1, 100, 0⟩, ⟨1, 200, 0⟩] ∧
    (c3worder.apply_fills_dec [⟨1, 100, 0⟩, ⟨1, 200, 0⟩]).status =
      OrderStatus.filled ∧
    (c3worder.apply_fills_dec [⟨1, 100, 0⟩, ⟨1, 200, 0⟩]).filled_amount = 2 ∧
    (c3worder.apply_fills_dec [⟨1, 100, 0⟩, ⟨1, 200, 0⟩]).average_price = 150 := by
  have hpos : ∀ f ∈ ([⟨1, 100, 0⟩, ⟨1, 200, 0⟩] : List Fill), 0 < f.amount := by
    intro f hf
    simp only [List.mem_cons, List.mem_singleton] at hf
    rcases hf with h | h | h
    · rw [h]
      norm_num
    · rw [h]
      norm_num
    · exact absurd h (by simp)
  have hstep1 : DecStepExact c3worder ⟨1, 100, 0⟩ := by
    refine ⟨?_, ?_, ?_, ?_, ?_, ?_, ?_⟩ <;>
      norm_num [c3worder, decExact, decRound28_zero, decRound28_one, decRound28_100]
  have hstep2 : DecStepExact
      ({ c3worder with
         filled_amount := 1, average_price := 100,
         status := OrderStatus.partially_filled } : Order) ⟨1, 200, 0⟩ := by
    refine ⟨?_, ?_, ?_, ?_, ?_, ?_, ?_⟩ <;>
      norm_num [c3worder, decExact, decRound28_zero, decRound28_one, decRound28_two,
        decRound28_100, decRound28_150, decRound28_200, decRound28_300]
  have hexact : DecExactFills c3worder [⟨1, 100, 0⟩, ⟨1, 200, 0⟩] := by
    refine ⟨hstep1, ?_, trivial⟩
    rw [c3worder_step1]
    exact hstep2
  have h := C3_fill_sequence c3worder [⟨1, 100, 0⟩, ⟨1, 200, 0⟩] rfl rfl hpos
    (by norm_num [fillTotal, c3worder]) (by simp) hexact
  refine ⟨rfl, rfl, hpos, by norm_num [fillTotal, c3worder], hexact,
    h.1, h.2.1, h.2.2.trans ?_⟩
  norm_num [fillNotional, c3worder]

/-! ## String-keyed association lists: the embedding of Python dicts.
Updating an existing key keeps its position, a new key is appended at the
end, exactly as insertion-ordered Python dicts behave. -/

def alistLookup {α : Type} : List (String × α) → String → Option α
| [], _ => none
| (k1, v1) :: rest, k => if k1 = k then some v1 else alistLookup rest k

def alistSet {α : Type} : List (String × α) → String → α → List (String × α)
| [], k, v => [(k, v)]
| (k1, v1) :: rest, k, v =>
  if k1 = k then (k, v) :: rest else (k1, v1) :: alistSet rest k v

theorem alistLookup_alistSet_self {α : Type} (l : List (String × α)) (k : String) (v : α) :
    alistLookup (alistSet l k v) k = some v := by
  induction l with
  | nil => simp [alistSet, alistLookup]
  | cons p rest ih =>
    rcases p with ⟨k1, v1⟩
    by_cases h : k1 = k
    · subst h
      simp [alistSet, alistLookup]
    · simp [alistSet, alistLookup, h, ih]

theorem alistLookup_alistSet_ne {α : Type} (l : List (String × α)) (k k2 : String) (v : α)
    (h : k2 ≠ k) : alistLookup (alistSet l k v) k2 = alistLookup l k2 := by
  induction l with
  | nil => simp [alistSet, alistLookup, Ne.symm h]
  | cons p rest ih =>
    rcases p with ⟨k1, v1⟩
    by_cases h1 : k1 = k
    · subst h1
      simp [alistSet, alistLookup, Ne.symm h, h]
    · simp [alistSet, alistLookup, h1, ih]

/-- Python dict .get(key, 0) for the balance sheet. -/
def balGet (l : List (String × ℚ)) (k : String) : ℚ := (alistLookup l k).getD 0

/-! ## MockOrderExecutor (OrderExecutor.py) -/

/-- Connectivity failure raised by the executor. -/
inductive ExecError
| notConnected
deriving DecidableEq, Repr

/-- Mutable state of a MockOrderExecutor: connection flag, the in-memory
order table, the simulated balance sheet, the order id counter and the
fixed ticker table. -/
structure ExecState where
  connected : Bool
  orders : List (String × Order)
  balance : List (String × ℚ)
  order_counter : ℕ
  tickers : List (String × ℚ)
deriving DecidableEq, Repr

/-- Initial state of a fresh MockOrderExecutor with the default mock
balances and tickers, before or after connect. -/
def mkMockState (connected : Bool) : ExecState :=
  { connected := connected, orders := [],
    balance := [("USDT", 10000), ("BTC", 1/2), ("ETH", 5)],
    order_counter := 1,
    tickers := [("BTC/USDT", 50000), ("ETH/USDT", 3000), ("ADA/USDT", 1/2)] }

/-- Embedding of MockOrderExecutor.create_order.  The connectivity check is
the only gate; datetime.now and uuid4 are passed in as the now tick and the
uuid hex string; rate limiting is a pure time delay with no state effect
and is not modelled.  A market order is filled immediately and moves the
balance sheet; a limit order stays new; other order types keep the default
new status. -/
def ExecState.create_order (st : ExecState) (exchange_name symbol : String)
    (side : OrderSide) (order_type : OrderType) (amount : ℚ)
    (price stop_price : Option ℚ) (now : ℕ) (uuidHex : String) :
    Except ExecError (Order × ExecState) :=
  if st.connected = false then Except.error ExecError.notConnected
  else
    let order_id := exchange_name ++ "_" ++ toString st.order_counter ++ "_" ++ toString now
    let st1 := { st with order_counter := st.order_counter + 1 }
    let current_price := (alistLookup st.tickers symbol).getD 100
    let execution_price :=
      match price with
      | some p => if p = 0 then current_price else p
      | none => current_price
    let order : Order :=
      { id := order_id, symbol := symbol, side := side, order_type := order_type,
        amount := amount, price := price, stop_price := stop_price,
        client_order_id := "mock_" ++ uuidHex, created_at := now, updated_at := now,
        tags := [("exchange", exchange_name), ("test", "True"),
                 ("created_at", toString now)] }
    match order_type with
    | OrderType.market =>
      let order2 := order.update_fill amount execution_price
        (amount * execution_price * (1/1000)) now
      let order3 := { order2 with status := OrderStatus.filled }
      let base_currency := (symbol.splitOn "/").getD 0 ""
      let quote_currency := (symbol.splitOn "/").getD 1 ""
      let bal1 :=
        match side with
        | OrderSide.buy =>
          let b1 := alistSet st1.balance base_currency
            (balGet st1.balance base_currency + amount)
          alistSet b1 quote_currency (balGet b1 quote_currency - amount * execution_price)
        | OrderSide.sell =>
          let b1 := alistSet st1.balance base_currency
            (balGet st1.balance base_currency - amount)
          alistSet b1 quote_currency (balGet b1 quote_currency + amount * execution_price)
      Except.ok (order3,
        { st1 with balance := bal1, orders := alistSet st1.orders order3.id order3 })
    | OrderType.limit =>
      let order2 := { order with status := OrderStatus.new }
      Except.ok (order2, { st1 with orders := alistSet st1.orders order2.id order2 })
    | _ =>
      Except.ok (order, { st1 with orders := alistSet st1.orders order.id order })

/-- Embedding of MockOrderExecutor.cancel_order: no connectivity check;
false for an unknown id or a non-cancellable status, otherwise the order
becomes cancelled and true is returned. -/
def ExecState.cancel_order (st : ExecState) (order_id : String) (now : ℕ) :
    Bool × ExecState :=
  match alistLookup st.orders order_id with
  | none => (false, st)
  | some o =>
    if o.is_cancellable then
      (true,
        { st with
            orders :=
              alistSet st.orders order_id
                ({ o with status := OrderStatus.cancelled, updated_at := now }) })
    else (false, st)

/-- Embedding of MockOrderExecutor.get_order: no connectivity check. -/
def ExecState.get_order (st : ExecState) (order_id : String) : Option Order :=
  alistLookup st.orders order_id

/-- Embedding of MockOrderExecutor.get_open_orders: no connectivity check;
all active orders in table order, optionally filtered by symbol. -/
def ExecState.get_open_orders (st : ExecState) (symbol : Option String) : List Order :=
  (st.orders.map (fun p => p.2)).filter
    (fun o => o.is_active &&
      (match symbol with | none => true | some s => o.symbol == s))

/-- Embedding of MockOrderExecutor.get_order_history: no connectivity
check; filter by symbol and creation-time window, stable sort newest first,
truncate to the limit. -/
def ExecState.get_order_history (st : ExecState) (symbol : Option String) (limit : ℕ)
    (start_time end_time : Option ℕ) : List Order :=
  let l0 := st.orders.map (fun p => p.2)
  let l1 := match symbol with
    | none => l0
    | some s => l0.filter (fun o => o.symbol == s)
  let l2 := match start_time with
    | none => l1
    | some t => l1.filter (fun o => t ≤ o.created_at)
  let l3 := match end_time with
    | none => l2
    | some t => l2.filter (fun o => o.created_at ≤ t)
  (l3.mergeSort (fun a b => b.created_at ≤ a.created_at)).take limit

/-- Embedding of MockOrderExecutor.get_balance: no connectivity check. -/
def ExecState.get_balance (st : ExecState) : List (String × ℚ) := st.balance

/-! ## Order invariant and the mutation operations of claim C5 -/

/-- The Order invariant of the specification: bounded fill, average price
only after a fill, status consistent with the filled amount. -/
def OrderInvariant (o : Order) : Prop :=
  0 ≤ o.filled_amount ∧ o.filled_amount ≤ o.amount ∧
  (o.average_price ≠ 0 → 0 < o.filled_amount) ∧
  (o.status = OrderStatus.filled → o.filled_amount = o.amount) ∧
  (o.status = OrderStatus.partially_filled →
    0 < o.filled_amount ∧ o.filled_amount < o.amount)

/-- A mutation of a tracked order: an update_fill call or the cancel arm of
cancel_order (which checks is_cancellable before flipping the status). -/
inductive OrderOp
| fill (f : Fill)
| cancel
deriving DecidableEq, Repr

def Order.apply_op (o : Order) : OrderOp → Order
| OrderOp.fill f => o.update_fill f.amount f.price f.commission 0
| OrderOp.cancel =>
  if o.is_cancellable then { o with status := OrderStatus.cancelled } else o

def Order.apply_ops (o : Order) (ops : List OrderOp) : Order :=
  ops.foldl Order.apply_op o

/-- A fill is good when it is positive and no larger than the remaining
amount; cancels are always good. -/
def GoodOp (o : Order) : OrderOp → Prop
| OrderOp.fill f => 0 < f.amount ∧ f.amount ≤ o.amount - o.filled_amount
| OrderOp.cancel => True

def GoodOps : Order → List OrderOp → Prop
| _, [] => True
| o, op :: ops => GoodOp o op ∧ GoodOps (o.apply_op op) ops

theorem apply_op_invariant (o : Order) (op : OrderOp)
    (h : OrderInvariant o) (hg : GoodOp o op) : OrderInvariant (o.apply_op op) := by
  obtain ⟨h1, h2, h3, h4, h5⟩ := h
  cases op with
  | fill f =>
    obtain ⟨hf1, hf2⟩ := hg
    have hfa : (o.apply_op (OrderOp.fill f)).filled_amount =
      o.filled_amount + f.amount := rfl
    have hamt : (o.apply_op (OrderOp.fill f)).amount = o.amount := rfl
    have hpos : 0 < o.filled_amount + f.amount := by linarith
    have hst : (o.apply_op (OrderOp.fill f)).status =
        (if o.amount ≤ o.filled_amount + f.amount then OrderStatus.filled
         else OrderStatus.partially_filled) := rfl
    refine ⟨?_, ?_, ?_, ?_, ?_⟩
    · rw [hfa]
      linarith
    · rw [hfa, hamt]
      linarith
    · intro _
      rw [hfa]
      exact hpos
    · intro hs
      rw [hst] at hs
      rw [hfa, hamt]
      by_cases hc : o.amount ≤ o.filled_amount + f.amount
      · linarith
      · rw [if_neg hc] at hs
        exact absurd hs (by simp)
    · intro hs
      rw [hst] at hs
      rw [hfa, hamt]
      by_cases hc : o.amount ≤ o.filled_amount + f.amount
      · rw [if_pos hc] at hs
        exact absurd hs (by simp)
      · push_neg at hc
        exact ⟨hpos, hc⟩
  | cancel =>
    simp only [Order.apply_op]
    by_cases hc : o.is_cancellable = true
    · rw [if_pos hc]
      refine ⟨h1, h2, h3, ?_, ?_⟩ <;> intro hs <;> simp at hs
    · rw [if_neg hc]
      exact ⟨h1, h2, h3, h4, h5⟩

theorem apply_ops_invariant (o : Order) (ops : List OrderOp)
    (h : OrderInvariant o) (hg : GoodOps o ops) : OrderInvariant (o.apply_ops ops) := by
  induction ops generalizing o with
  | nil => exact h
  | cons op rest ih =>
    obtain ⟨hg1, hg2⟩ := hg
    exact ih (o.apply_op op) (apply_op_invariant o op h hg1) hg2

theorem created_order_invariant (st : ExecState) (name sym : String) (side : OrderSide)
    (ot : OrderType) (amount : ℚ) (price stop : Option ℚ) (now : ℕ) (uuid : String)
    (o : Order) (st2 : ExecState) (hamt : 0 ≤ amount)
    (h : st.create_order name sym side ot amount price stop now uuid =
      Except.ok (o, st2)) : OrderInvariant o := by
  rw [ExecState.create_order] at h
  by_cases hc : st.connected = false
  · rw [if_pos hc] at h
    exact absurd h (by simp)
  · rw [if_neg hc] at h
    cases ot <;>
      simp only [Except.ok.injEq, Prod.mk.injEq] at h <;>
      obtain ⟨ho, -⟩ := h <;>
      subst ho
    · -- market order: immediately filled in full
      refine ⟨?_, ?_, ?_, ?_, ?_⟩
      · simpa [Order.update_fill] using hamt
      · simp [Order.update_fill]
      · intro ha
        by_cases hz : 0 < amount
        · simpa [Order.update_fill] using hz
        · exfalso
          apply ha
          have hz0 : amount = 0 := le_antisymm (not_lt.mp hz) hamt
          simp [Order.update_fill, hz0]
      · intro _
        simp [Order.update_fill]
      · intro hs
        simp at hs
    all_goals
      refine ⟨?_, ?_, ?_, ?_, ?_⟩
      · exact le_rfl
      · exact hamt
      · intro ha
        simp at ha
      · intro hs
        simp at hs
      · intro hs
        simp at hs

/-- Claim C5 amended: an order created by create_order with a nonnegative
amount satisfies the invariant, and the invariant is preserved by any
sequence of update_fill and cancel operations provided every fill amount is
positive and at most the remaining amount.  (An unguarded overfill breaks
it, see the counterexample.) -/
theorem C5_order_invariant :
    (∀ (st : ExecState) (name sym : String) (side : OrderSide) (ot : OrderType)
        (amount : ℚ) (price stop : Option ℚ) (now : ℕ) (uuid : String)
        (o : Order) (st2 : ExecState),
      0 ≤ amount →
      st.create_order name sym side ot amount price stop now uuid = Except.ok (o, st2) →
      OrderInvariant o) ∧
    (∀ (o : Order) (ops : List OrderOp), OrderInvariant o → GoodOps o ops →
      OrderInvariant (o.apply_ops ops)) :=
  ⟨created_order_invariant, apply_ops_invariant⟩

/-- Witness for C5_order_invariant: a fresh limit order of amount 2, a good
fill of 1 at 100 followed by a cancel, ending with the invariant intact. -/
theorem C5_order_invariant_witness :
    OrderInvariant
      ({ id := "o2", symbol := "BTC/USDT", side := .buy, order_type := .limit,
         amount := 2 : Order}) ∧
    GoodOps
      ({ id := "o2", symbol := "BTC/USDT", side := .buy, order_type := .limit,
         amount := 2 : Order}) [OrderOp.fill ⟨1, 100, 0⟩, OrderOp.cancel] ∧
    OrderInvariant
      (({ id := "o2", symbol := "BTC/USDT", side := .buy, order_type := .limit,
          amount := 2 : Order}).apply_ops [OrderOp.fill ⟨1, 100, 0⟩, OrderOp.cancel]) := by
  have h1 : OrderInvariant
      ({ id := "o2", symbol := "BTC/USDT", side := .buy, order_type := .limit,
         amount := 2 : Order}) := by
    refine ⟨le_rfl, by norm_num, ?_, ?_, ?_⟩ <;> intro h <;> simp at h
  have h2 : GoodOps
      ({ id := "o2", symbol := "BTC/USDT", side := .buy, order_type := .limit,
         amount := 2 : Order}) [OrderOp.fill ⟨1, 100, 0⟩, OrderOp.cancel] := by
    refine ⟨⟨by norm_num, by norm_num⟩, trivial, trivial⟩
  exact ⟨h1, h2, C5_order_invariant.2 _ _ h1 h2⟩

/-- Claim C5 counterexample: the limit order of amount 1 created by
create_order, mutated by the single update_fill of 2 at price 100, ends
with filled_amount 2 above its amount 1 and status filled although
filled_amount differs from amount — update_fill does not reject fills
beyond the remaining amount. -/
theorem C5_counterexample :
    ((mkMockState true).create_order "MockExchange" "BTC/USDT" OrderSide.buy
        OrderType.limit 1 (some 50000) none 0 "abcd1234").map
      (fun p => (p.1.apply_op (OrderOp.fill ⟨2, 100, 0⟩)).filled_amount) =
      Except.ok 2 ∧
    ((mkMockState true).create_order "MockExchange" "BTC/USDT" OrderSide.buy
        OrderType.limit 1 (some 50000) none 0 "abcd1234").map
      (fun p => (p.1.apply_op (OrderOp.fill ⟨2, 100, 0⟩)).amount) =
      Except.ok 1 ∧
    ((mkMockState true).create_order "MockExchange" "BTC/USDT" OrderSide.buy
        OrderType.limit 1 (some 50000) none 0 "abcd1234").map
      (fun p => (p.1.apply_op (OrderOp.fill ⟨2, 100, 0⟩)).status) =
      Except.ok OrderStatus.filled ∧
    ¬ ((2:ℚ) ≤ 1) := by
  refine ⟨?_, ?_, ?_, by norm_num⟩ <;>
    norm_num [mkMockState, ExecState.create_order, Order.apply_op, Order.update_fill,
      Except.map]

/-- Claim C6 amended: only create_order is gated on connectivity — while
disconnected it fails with the connectivity error (so the order table and
balances are untouched); cancel_order, get_order, get_open_orders,
get_order_history and get_balance never consult the connection flag and
behave identically connected or not. -/
theorem C6_connectivity_gating :
    (∀ (st : ExecState) (name sym : String) (side : OrderSide) (ot : OrderType)
        (amount : ℚ) (price stop : Option ℚ) (now : ℕ) (uuid : String),
      st.connected = false →
      st.create_order name sym side ot amount price stop now uuid =
        Except.error ExecError.notConnected) ∧
    (∀ (st : ExecState) (b : Bool) (order_id : String) (now : ℕ),
      ({ st with connected := b } : ExecState).cancel_order order_id now =
        ((st.cancel_order order_id now).1,
         { (st.cancel_order order_id now).2 with connected := b })) ∧
    (∀ (st : ExecState) (b : Bool) (order_id : String),
      ({ st with connected := b } : ExecState).get_order order_id =
        st.get_order order_id) ∧
    (∀ (st : ExecState) (b : Bool) (symbol : Option String),
      ({ st with connected := b } : ExecState).get_open_orders symbol =
        st.get_open_orders symbol) ∧
    (∀ (st : ExecState) (b : Bool) (symbol : Option String) (limit : ℕ)
        (s e : Option ℕ),
      ({ st with connected := b } : ExecState).get_order_history symbol limit s e =
        st.get_order_history symbol limit s e) ∧
    (∀ (st : ExecState) (b : Bool),
      ({ st with connected := b } : ExecState).get_balance = st.get_balance) := by
  refine ⟨?_, ?_, fun _ _ _ => rfl, fun _ _ _ => rfl, fun _ _ _ _ _ _ => rfl,
    fun _ _ => rfl⟩
  · intro st name sym side ot amount price stop now uuid h
    rw [ExecState.create_order, if_pos h]
  · intro st b order_id now
    simp only [ExecState.cancel_order]
    cases hl : alistLookup st.orders order_id with
    | none => rfl
    | some o =>
      by_cases hc : o.is_cancellable = true <;> simp [hc]

/-- Witness for C6_connectivity_gating: a disconnected fresh mock rejects a
market create_order with the connectivity error. -/
theorem C6_connectivity_gating_witness :
    (mkMockState false).connected = false ∧
    (mkMockState false).create_order "MockExchange" "BTC/USDT" OrderSide.buy
        OrderType.market 1 none none 0 "u1" =
      Except.error ExecError.notConnected :=
  ⟨rfl, C6_connectivity_gating.1 (mkMockState false) "MockExchange" "BTC/USDT"
    OrderSide.buy OrderType.market 1 none none 0 "u1" rfl⟩

/-- A disconnected executor state holding one tracked new limit order. -/
def c6order : Order :=
  { id := "o1", symbol := "BTC/USDT", side := .buy, order_type := .limit, amount := 1 }

def c6state : ExecState :=
  { connected := false, orders := [("o1", c6order)], balance := [("USDT", 10000)],
    order_counter := 2, tickers := [("BTC/USDT", 50000)] }

/-- Claim C6 counterexample: a disconnected executor still cancels a
tracked new order — cancel_order returns true and flips the status to
cancelled although the executor is not connected, so connection state does
not gate every exchange-boundary operation. -/
theorem C6_counterexample :
    c6state.connected = false ∧
    (c6state.cancel_order "o1" 7).1 = true ∧
    ((c6state.cancel_order "o1" 7).2.get_order "o1").map Order.status =
      some OrderStatus.cancelled := by
  refine ⟨rfl, ?_, ?_⟩ <;>
    simp [c6state, c6order, ExecState.cancel_order, ExecState.get_order,
      Order.is_cancellable, alistLookup, alistSet]

/-- Claim C7: cancel_order returns false and leaves the state untouched for
an unknown id or a status outside new and partially_filled, and for a
cancellable order it returns true, sets exactly that order to cancelled and
leaves every other order, the balances and the connection flag unchanged. -/
theorem C7_cancel_order_semantics (st : ExecState) (order_id : String) (now : ℕ) :
    (st.get_order order_id = none → st.cancel_order order_id now = (false, st)) ∧
    (∀ o, st.get_order order_id = some o →
      o.status ≠ OrderStatus.new → o.status ≠ OrderStatus.partially_filled →
      st.cancel_order order_id now = (false, st)) ∧
    (∀ o, st.get_order order_id = some o →
      (o.status = OrderStatus.new ∨ o.status = OrderStatus.partially_filled) →
      (st.cancel_order order_id now).1 = true ∧
      (st.cancel_order order_id now).2.get_order order_id =
        some ({ o with status := OrderStatus.cancelled, updated_at := now }) ∧
      (∀ k, k ≠ order_id →
        (st.cancel_order order_id now).2.get_order k = st.get_order k) ∧
      (st.cancel_order order_id now).2.balance = st.balance ∧
      (st.cancel_order order_id now).2.connected = st.connected) := by
  refine ⟨?_, ?_, ?_⟩
  · intro h
    rw [ExecState.get_order] at h
    simp [ExecState.cancel_order, h]
  · intro o ho h1 h2
    rw [ExecState.get_order] at ho
    have hnc : o.is_cancellable = false := by
      cases hs : o.status <;> simp_all [Order.is_cancellable]
    simp [ExecState.cancel_order, ho, hnc]
  · intro o ho hc
    rw [ExecState.get_order] at ho
    have hcc : o.is_cancellable = true := by
      rcases hc with h | h <;> simp [Order.is_cancellable, h]
    refine ⟨?_, ?_, ?_, ?_, ?_⟩
    · simp [ExecState.cancel_order, ho, hcc]
    · simp [ExecState.cancel_order, ExecState.get_order, ho, hcc,
        alistLookup_alistSet_self]
    · intro k hk
      simp [ExecState.cancel_order, ExecState.get_order, ho, hcc,
        alistLookup_alistSet_ne _ _ _ _ hk]
    · simp [ExecState.cancel_order, ho, hcc]
    · simp [ExecState.cancel_order, ho, hcc]

/-- A connected executor state holding one tracked new limit order. -/
def c7order : Order :=
  { id := "o1", symbol := "ETH/USDT", side := .sell, order_type := .limit, amount := 3 }

def c7state : ExecState :=
  { connected := true, orders := [("o1", c7order)], balance := [],
    order_counter := 2, tickers := [] }

/-- Witness for C7_cancel_order_semantics: cancelling a tracked new order
succeeds and mutates exactly that order. -/
theorem C7_cancel_order_semantics_witness :
    c7state.get_order "o1" = some c7order ∧
    (c7order.status = OrderStatus.new ∨
     c7order.status = OrderStatus.partially_filled) ∧
    ((c7state.cancel_order "o1" 9).1 = true ∧
     (c7state.cancel_order "o1" 9).2.get_order "o1" =
       some ({ c7order with status := OrderStatus.cancelled, updated_at := 9 }) ∧
     (∀ k, k ≠ "o1" →
       (c7state.cancel_order "o1" 9).2.get_order k = c7state.get_order k) ∧
     (c7state.cancel_order "o1" 9).2.balance = c7state.balance ∧
     (c7state.cancel_order "o1" 9).2.connected = c7state.connected) :=
  ⟨rfl, Or.inl rfl,
    (C7_cancel_order_semantics c7state "o1" 9).2.2 c7order rfl (Or.inl rfl)⟩

/-! ## SmartOrderRouter (OrderExecutor.py) -/

/-- Outcome of one successfully filled chunk order on a venue (the fields
of the returned Order that the router reads). -/
structure FillRes where
  filled : ℚ
  avg : ℚ
  comm : ℚ
deriving DecidableEq, Repr

/-- ExecutionReport fields the router fills per chunk. -/
structure Report where
  executed_amount : ℚ
  executed_price : ℚ
  commission : ℚ
deriving DecidableEq, Repr

/-- Environment of the router: per iteration, the list of per-venue ticker
replies (none marks a venue whose ticker query raised), and the outcome of
the chunk order sent to the chosen venue (none covers both a raising
create_order, whose exception the loop swallows, and an unfilled order —
in both cases no report is added and the remaining amount is unchanged). -/
structure RouterEnv where
  quotes : ℕ → List (String × Option ℚ)
  fill : ℕ → ℚ → Option FillRes

/-- Embedding of SmartOrderRouter.find_best_execution: fold over the venue
replies, skipping errors and zero prices, keeping the lowest ask for buys
and the highest bid for sells. -/
def find_best_execution (side : OrderSide) (quotes : List (String × Option ℚ)) :
    Option String × ℚ :=
  quotes.foldl
    (fun best pq =>
      match pq.2 with
      | none => best
      | some price =>
        if price = 0 then best
        else
          match best.1 with
          | none => (some pq.1, price)
          | some _ =>
            if (side = OrderSide.buy ∧ price < best.2) ∨
               (side = OrderSide.sell ∧ best.2 < price) then (some pq.1, price)
            else best)
    (none, 0)

/-- The fixed minimum trade size of the routing loop. -/
def min_chunk : ℚ := 1/1000

/-- Embedding of the while loop of execute_with_smart_routing, with an
explicit fuel so that non-termination is observable as none for every
fuel.  Each pass: stop when the remaining amount is at or below the
minimum chunk; query the venues and stop when none responds; otherwise
send a chunk capped at 30 percent of the original amount and, when it
fills, record a report and subtract the filled amount. -/
def route_loop (env : RouterEnv) (side : OrderSide) (amount : ℚ) :
    ℕ → ℕ → ℚ → List Report → Option (ℚ × List Report)
| 0, _, _, _ => none
| fuel+1, i, remaining, reports =>
  if min_chunk < remaining then
    match (find_best_execution side (env.quotes i)).1 with
    | none => some (remaining, reports.reverse)
    | some _ =>
      let chunk := min remaining (amount * (3/10))
      match env.fill i chunk with
      | some fr =>
        route_loop env side amount fuel (i+1) (remaining - fr.filled)
          ({ executed_amount := fr.filled, executed_price := fr.avg,
             commission := fr.comm } :: reports)
      | none => route_loop env side amount fuel (i+1) remaining reports
  else some (remaining, reports.reverse)

/-- Embedding of SmartOrderRouter.execute_with_smart_routing: market orders
run the splitting loop, other order types fall through with no reports. -/
def execute_with_smart_routing (env : RouterEnv) (side : OrderSide)
    (order_type : OrderType) (amount : ℚ) (fuel : ℕ) : Option (ℚ × List Report) :=
  if order_type = OrderType.market then route_loop env side amount fuel 0 amount []
  else some (amount, [])

/-- Termination of the routing loop on a market order: some fuel makes the
loop finish. -/
def routing_terminates (env : RouterEnv) (side : OrderSide) (amount : ℚ) : Prop :=
  ∃ fuel, (execute_with_smart_routing env side OrderType.market amount fuel).isSome

/-- A venue that answers every price query but whose chunk orders always
fail (for instance a venue whose order path raises ConnectionError, which
the loop catches and ignores). -/
def badEnv : RouterEnv :=
  { quotes := fun _ => [("X", some 1)], fill := fun _ _ => none }

theorem badEnv_loop_none (fuel : ℕ) :
    ∀ (i : ℕ) (reports : List Report),
      route_loop badEnv OrderSide.buy 1 fuel i 1 reports = none := by
  induction fuel with
  | zero =>
    intro i reports
    rfl
  | succ n ih =>
    intro i reports
    rw [route_loop, if_pos (by norm_num [min_chunk])]
    simpa [badEnv, find_best_execution] using ih (i+1) reports

/-- Claim C9 counterexample: against a venue that responds to every price
query but never fills the dispatched chunk, the routing loop of a market
order of amount 1 never terminates — the remaining amount never drops, so
neither stated stop condition is ever reached. -/
theorem C9_counterexample : ¬ routing_terminates badEnv OrderSide.buy 1 := by
  rintro ⟨fuel, h⟩
  rw [execute_with_smart_routing, if_pos rfl, badEnv_loop_none fuel 0 []] at h
  exact absurd h (by simp)

theorem route_loop_full_fill (env : RouterEnv) (side : OrderSide) (amount : ℚ)
    (hff : ∀ i c, ∃ fr, env.fill i c = some fr ∧ fr.filled = c)
    (hA : 0 ≤ amount) :
    ∀ (n i : ℕ) (r : ℚ) (reports : List Report),
      r ≤ min_chunk + (n : ℚ) * (amount * (3/10)) →
      (∀ rep ∈ reports, rep.executed_amount ≤ amount * (3/10)) →
      ∃ rem reps, route_loop env side amount (n+1) i r reports = some (rem, reps) ∧
        (∀ rep ∈ reps, rep.executed_amount ≤ amount * (3/10)) ∧
        (rem ≤ min_chunk ∨ ∃ j, (find_best_execution side (env.quotes j)).1 = none) := by
  intro n
  induction n with
  | zero =>
    intro i r reports hr hreps
    have hr0 : ¬ (min_chunk < r) := by
      push_cast at hr
      exact not_lt.mpr (by linarith)
    rw [route_loop, if_neg hr0]
    refine ⟨r, reports.reverse, rfl, ?_, Or.inl (not_lt.mp hr0)⟩
    intro rep hrep
    exact hreps rep (List.mem_reverse.mp hrep)
  | succ n ih =>
    intro i r reports hr hreps
    rw [route_loop]
    by_cases hcond : min_chunk < r
    · rw [if_pos hcond]
      cases hq : (find_best_execution side (env.quotes i)).1 with
      | none =>
        refine ⟨r, reports.reverse, rfl, ?_, Or.inr ⟨i, hq⟩⟩
        intro rep hrep
        exact hreps rep (List.mem_reverse.mp hrep)
      | some name =>
        obtain ⟨fr, hfill, hfr⟩ := hff i (min r (amount * (3/10)))
        simp only [hfill]
        have h03 : (0:ℚ) ≤ amount * (3/10) := by
          have : (0:ℚ) ≤ (3/10 : ℚ) := by norm_num
          exact mul_nonneg hA this
        have hmc : (0:ℚ) < min_chunk := by norm_num [min_chunk]
        have hn0 : (0:ℚ) ≤ (n : ℚ) * (amount * (3/10)) :=
          mul_nonneg (Nat.cast_nonneg n) h03
        have hr2 : r - fr.filled ≤ min_chunk + (n : ℚ) * (amount * (3/10)) := by
          rw [hfr]
          rcases le_or_lt r (amount * (3/10)) with hcase | hcase
          · rw [min_eq_left hcase]
            linarith
          · rw [min_eq_right hcase.le]
            push_cast at hr
            linarith
        have hreps2 : ∀ rep ∈
            ({ executed_amount := fr.filled, executed_price := fr.avg,
               commission := fr.comm } : Report) :: reports,
            rep.executed_amount ≤ amount * (3/10) := by
          intro rep hrep
          rcases List.mem_cons.mp hrep with h | h
          · rw [h, hfr]
            exact min_le_right _ _
          · exact hreps rep h
        exact ih (i+1) (r - fr.filled) _ hr2 hreps2
    · rw [if_neg hcond]
      refine ⟨r, reports.reverse, rfl, ?_, Or.inl (not_lt.mp hcond)⟩
      intro rep hrep
      exact hreps rep (List.mem_reverse.mp hrep)

/-- Claim C9 amended: for a market order against venues whose dispatched
chunk orders always fill in full (the behavior of the repository mock for
connected market orders), the loop finishes within five passes; every
accumulated report covers a chunk of at most 30 percent of the original
amount; and on exit the remaining amount is at or below the minimum chunk
(equality included — the source stops at remaining equal to the minimum,
not strictly below) or some pass found no responding venue.  Without the
full-fill proviso the loop need not terminate (see the counterexample). -/
theorem C9_smart_routing (env : RouterEnv) (side : OrderSide) (amount : ℚ)
    (hff : ∀ i c, ∃ fr, env.fill i c = some fr ∧ fr.filled = c)
    (hA : 0 ≤ amount) :
    ∃ rem reps,
      execute_with_smart_routing env side OrderType.market amount 5 = some (rem, reps) ∧
      (∀ rep ∈ reps, rep.executed_amount ≤ amount * (3/10)) ∧
      (rem ≤ min_chunk ∨ ∃ j, (find_best_execution side (env.quotes j)).1 = none) := by
  rw [execute_with_smart_routing, if_pos rfl]
  have hmc : (0:ℚ) < min_chunk := by norm_num [min_chunk]
  refine route_loop_full_fill env side amount hff hA 4 0 amount [] ?_ ?_
  · push_cast
    linarith
  · intro rep hrep
    exact absurd hrep (List.not_mem_nil rep)

/-- A venue environment that always quotes price 10 and fills every chunk
in full. -/
def goodEnv : RouterEnv :=
  { quotes := fun _ => [("A", some 10)], fill := fun _ c => some ⟨c, 10, 0⟩ }

/-- Witness for C9_smart_routing on a full-fill venue with amount 1. -/
theorem C9_smart_routing_witness :
    (∀ i c, ∃ fr, goodEnv.fill i c = some fr ∧ fr.filled = c) ∧ ((0:ℚ) ≤ 1) ∧
    (∃ rem reps,
      execute_with_smart_routing goodEnv OrderSide.buy OrderType.market 1 5 =
        some (rem, reps) ∧
      (∀ rep ∈ reps, rep.executed_amount ≤ 1 * (3/10)) ∧
      (rem ≤ min_chunk ∨
        ∃ j, (find_best_execution OrderSide.buy (goodEnv.quotes j)).1 = none)) :=
  ⟨fun i c => ⟨⟨c, 10, 0⟩, rfl, rfl⟩, by norm_num,
    C9_smart_routing goodEnv OrderSide.buy 1
      (fun i c => ⟨⟨c, 10, 0⟩, rfl, rfl⟩) (by norm_num)⟩

/-! ## Order serialization: to_dict and from_dict -/

/-- The .value string of the enum, as emitted by to_dict. -/
def OrderSide.value : OrderSide → String
| .buy => "buy"
| .sell => "sell"

/-- The enum constructor call of from_dict, failing on unknown strings. -/
def OrderSide.ofValue (s : String) : Option OrderSide :=
  if s = "buy" then some OrderSide.buy
  else if s = "sell" then some OrderSide.sell
  else none

def OrderType.value : OrderType → String
| .market => "market"
| .limit => "limit"
| .stop_market => "stop_market"
| .stop_limit => "stop_limit"
| .take_profit_market => "take_profit_market"
| .take_profit_limit => "take_profit_limit"
| .trailing_stop => "trailing_stop"

def OrderType.ofValue (s : String) : Option OrderType :=
  if s = "market" then some OrderType.market
  else if s = "limit" then some OrderType.limit
  else if s = "stop_market" then some OrderType.stop_market
  else if s = "stop_limit" then some OrderType.stop_limit
  else if s = "take_profit_market" then some OrderType.take_profit_market
  else if s = "take_profit_limit" then some OrderType.take_profit_limit
  else if s = "trailing_stop" then some OrderType.trailing_stop
  else none

def OrderStatus.value : OrderStatus → String
| .new => "new"
| .pending_new => "pending_new"
| .partially_filled => "partially_filled"
| .filled => "filled"
| .pending_cancel => "pending_cancel"
| .cancelled => "cancelled"
| .rejected => "rejected"
| .expired => "expired"

def OrderStatus.ofValue (s : String) : Option OrderStatus :=
  if s = "new" then some OrderStatus.new
  else if s = "pending_new" then some OrderStatus.pending_new
  else if s = "partially_filled" then some OrderStatus.partially_filled
  else if s = "filled" then some OrderStatus.filled
  else if s = "pending_cancel" then some OrderStatus.pending_cancel
  else if s = "cancelled" then some OrderStatus.cancelled
  else if s = "rejected" then some OrderStatus.rejected
  else if s = "expired" then some OrderStatus.expired
  else none

def OrderTimeInForce.value : OrderTimeInForce → String
| .GTC => "GTC"
| .IOC => "IOC"
| .FOK => "FOK"
| .DAY => "DAY"

def OrderTimeInForce.ofValue (s : String) : Option OrderTimeInForce :=
  if s = "GTC" then some OrderTimeInForce.GTC
  else if s = "IOC" then some OrderTimeInForce.IOC
  else if s = "FOK" then some OrderTimeInForce.FOK
  else if s = "DAY" then some OrderTimeInForce.DAY
  else none

theorem orderSide_ofValue_value (x : OrderSide) : OrderSide.ofValue x.value = some x := by
  cases x <;> rfl

theorem orderType_ofValue_value (x : OrderType) : OrderType.ofValue x.value = some x := by
  cases x <;> rfl

theorem orderStatus_ofValue_value (x : OrderStatus) :
    OrderStatus.ofValue x.value = some x := by
  cases x <;> rfl

theorem orderTimeInForce_ofValue_value (x : OrderTimeInForce) :
    OrderTimeInForce.ofValue x.value = some x := by
  cases x <;> rfl

/-- Python truthiness of an optional Decimal when serializing: None and
zero both render as null (str(x) if x else None). -/
def truthyOpt (x : Option ℚ) : Option ℚ :=
  match x with
  | none => none
  | some p => if p = 0 then none else some p

/-- The flat key-value structure produced by to_dict.  Decimal strings are
embedded by their rational value (Decimal to str to Decimal is the
identity on values), enum values stay strings, ISO-8601 timestamps are
embedded by their tick. -/
structure OrderDict where
  id : String
  symbol : String
  side : String
  order_type : String
  amount : ℚ
  price : Option ℚ
  stop_price : Option ℚ
  trigger_price : Option ℚ
  time_in_force : String
  status : String
  filled_amount : ℚ
  average_price : ℚ
  commission : ℚ
  commission_asset : String
  created_at : ℕ
  updated_at : ℕ
  client_order_id : String
  parent_order_id : Option String
  iceberg_amount : Option ℚ
  reduce_only : Bool
  post_only : Bool
  tags : List (String × String)
deriving DecidableEq, Repr

/-- Embedding of Order.to_dict. -/
def Order.to_dict (o : Order) : OrderDict :=
  { id := o.id, symbol := o.symbol,
    side := o.side.value, order_type := o.order_type.value,
    amount := o.amount,
    price := truthyOpt o.price,
    stop_price := truthyOpt o.stop_price,
    trigger_price := truthyOpt o.trigger_price,
    time_in_force := o.time_in_force.value, status := o.status.value,
    filled_amount := o.filled_amount, average_price := o.average_price,
    commission := o.commission, commission_asset := o.commission_asset,
    created_at := o.created_at, updated_at := o.updated_at,
    client_order_id := o.client_order_id, parent_order_id := o.parent_order_id,
    iceberg_amount := truthyOpt o.iceberg_amount,
    reduce_only := o.reduce_only, post_only := o.post_only, tags := o.tags }

/-- Embedding of Order.from_dict: parse the four enum strings (raising,
that is none, on unknown values) and read the remaining keys; the guarded
optional Decimal keys pass through (their serialized strings are nonempty,
hence truthy). -/
def Order.from_dict (d : OrderDict) : Option Order := do
  let side ← OrderSide.ofValue d.side
  let order_type ← OrderType.ofValue d.order_type
  let time_in_force ← OrderTimeInForce.ofValue d.time_in_force
  let status ← OrderStatus.ofValue d.status
  some
    { id := d.id, symbol := d.symbol, side := side, order_type := order_type,
      amount := d.amount, price := d.price, stop_price := d.stop_price,
      trigger_price := d.trigger_price, time_in_force := time_in_force, status := status,
      filled_amount := d.filled_amount, average_price := d.average_price,
      commission := d.commission, commission_asset := d.commission_asset,
      created_at := d.created_at, updated_at := d.updated_at,
      client_order_id := d.client_order_id, parent_order_id := d.parent_order_id,
      iceberg_amount := d.iceberg_amount, reduce_only := d.reduce_only,
      post_only := d.post_only, tags := d.tags }

theorem truthyOpt_eq_self (x : Option ℚ) (hx : x ≠ some 0) : truthyOpt x = x := by
  cases x with
  | none => rfl
  | some p =>
    simp only [truthyOpt]
    rw [if_neg]
    intro h0
    exact hx (by rw [h0])

/-- Claim C10: when each optional decimal field is None or non-zero,
from_dict of to_dict reconstructs the original order in every field. -/
theorem C10_dict_roundtrip (o : Order)
    (hp : o.price ≠ some 0) (hs : o.stop_price ≠ some 0)
    (ht : o.trigger_price ≠ some 0) (hi : o.iceberg_amount ≠ some 0) :
    Order.from_dict o.to_dict = some o := by
  simp only [Order.from_dict, Order.to_dict, orderSide_ofValue_value,
    orderType_ofValue_value, orderTimeInForce_ofValue_value, orderStatus_ofValue_value,
    Option.bind_eq_bind, Option.some_bind, truthyOpt_eq_self _ hp,
    truthyOpt_eq_self _ hs, truthyOpt_eq_self _ ht, truthyOpt_eq_self _ hi]

/-- A fully populated sample order for the round-trip witness. -/
def c10order : Order :=
  { id := "o9", symbol := "BTC/USDT", side := .sell, order_type := .stop_limit,
    amount := 5/2, price := some 50000, stop_price := some 49000, trigger_price := none,
    time_in_force := .IOC, status := .partially_filled, filled_amount := 1,
    average_price := 49900, commission := 1/10, commission_asset := "USDT",
    created_at := 11, updated_at := 12, client_order_id := "cl1",
    parent_order_id := some "p1", iceberg_amount := none, reduce_only := true,
    post_only := false, tags := [("oco_pair", "o8")] }

/-- Witness for C10_dict_roundtrip on the sample order. -/
theorem C10_dict_roundtrip_witness :
    c10order.price ≠ some 0 ∧ c10order.stop_price ≠ some 0 ∧
    c10order.trigger_price ≠ some 0 ∧ c10order.iceberg_amount ≠ some 0 ∧
    Order.from_dict c10order.to_dict = some c10order :=
  ⟨by simp [c10order], by simp [c10order], by simp [c10order],
    by simp [c10order],
    C10_dict_roundtrip c10order (by simp [c10order]) (by simp [c10order])
      (by simp [c10order]) (by simp [c10order])⟩

end Trading
